import Mathlib

/-! Events API (`src/index.js`).

A shallow embedding of the six Express handlers of `src/index.js` together with
a small in-memory model of the document store they talk to.

* Request bodies and stored documents are JSON values (`Json`); a JavaScript
  property read yields `JsVal = Option Json`, where `none` is `undefined`.
  Numbers inside JSON values are modelled by integers: the handlers only
  observe whether such a number is zero.  The numbers the pagination handler
  computes with (`Num`) are doubles: `NaN`, the infinities and the
  integer-valued doubles, with round-to-nearest arithmetic.
* Object literals built by the handlers (`Lit`) may hold `undefined` members;
  the driver serialises an `undefined` member as `null` (`Lit.toBson`).
* The store is a list of documents per collection.  Field names are plain
  names (no dotted paths).  Failures of the store are inputs of the model
  (`Env.connects`, `Env.fault`), as are the identifier generated for an
  insertion (`Env.newId`) and the store's ordering of values (`Env.le`).
-/

namespace EventsApi

/-! ## JSON values and JavaScript reads -/

/-- JSON values, as produced by `express.json()` and as held by the store. -/
inductive Json where
  | null
  | bool (b : Bool)
  | num (n : Int)
  | str (s : String)
  | arr (xs : List Json)
  | obj (ms : List (String × Json))

namespace Json

mutual
/-- Decidable equality of JSON values. -/
def decEq : (a b : Json) → Decidable (a = b)
  | null, null => isTrue rfl
  | bool a, bool b =>
    if h : a = b then isTrue (by rw [h]) else isFalse (by intro e; cases e; exact h rfl)
  | num a, num b =>
    if h : a = b then isTrue (by rw [h]) else isFalse (by intro e; cases e; exact h rfl)
  | str a, str b =>
    if h : a = b then isTrue (by rw [h]) else isFalse (by intro e; cases e; exact h rfl)
  | arr a, arr b =>
    match decEqList a b with
    | isTrue h => isTrue (by rw [h])
    | isFalse h => isFalse (by intro e; cases e; exact h rfl)
  | obj a, obj b =>
    match decEqMembers a b with
    | isTrue h => isTrue (by rw [h])
    | isFalse h => isFalse (by intro e; cases e; exact h rfl)
  | null, bool _ | null, num _ | null, str _ | null, arr _ | null, obj _ =>
    isFalse (by intro e; cases e)
  | bool _, null | bool _, num _ | bool _, str _ | bool _, arr _ | bool _, obj _ =>
    isFalse (by intro e; cases e)
  | num _, null | num _, bool _ | num _, str _ | num _, arr _ | num _, obj _ =>
    isFalse (by intro e; cases e)
  | str _, null | str _, bool _ | str _, num _ | str _, arr _ | str _, obj _ =>
    isFalse (by intro e; cases e)
  | arr _, null | arr _, bool _ | arr _, num _ | arr _, str _ | arr _, obj _ =>
    isFalse (by intro e; cases e)
  | obj _, null | obj _, bool _ | obj _, num _ | obj _, str _ | obj _, arr _ =>
    isFalse (by intro e; cases e)
/-- Decidable equality of JSON arrays. -/
def decEqList : (a b : List Json) → Decidable (a = b)
  | [], [] => isTrue rfl
  | [], _ :: _ => isFalse (by intro e; cases e)
  | _ :: _, [] => isFalse (by intro e; cases e)
  | x :: xs, y :: ys =>
    match decEq x y, decEqList xs ys with
    | isTrue h₁, isTrue h₂ => isTrue (by rw [h₁, h₂])
    | isFalse h, _ => isFalse (by intro e; cases e; exact h rfl)
    | _, isFalse h => isFalse (by intro e; cases e; exact h rfl)
/-- Decidable equality of JSON object member lists. -/
def decEqMembers : (a b : List (String × Json)) → Decidable (a = b)
  | [], [] => isTrue rfl
  | [], _ :: _ => isFalse (by intro e; cases e)
  | _ :: _, [] => isFalse (by intro e; cases e)
  | (k, x) :: xs, (l, y) :: ys =>
    if hk : k = l then
      match decEq x y, decEqMembers xs ys with
      | isTrue h₁, isTrue h₂ => isTrue (by rw [hk, h₁, h₂])
      | isFalse h, _ => isFalse (by intro e; cases e; exact h rfl)
      | _, isFalse h => isFalse (by intro e; cases e; exact h rfl)
    else isFalse (by intro e; cases e; exact hk rfl)
end

instance : DecidableEq Json := decEq

end Json

/-- The result of a JavaScript property read: `none` is `undefined`. -/
abbrev JsVal := Option Json

/-- JavaScript truthiness (`ToBoolean`): `undefined`, `null`, `false`, `0` and
the empty string are falsy; everything else, arrays and objects included, is
truthy. -/
def truthy : JsVal → Bool
  | none => false
  | some .null => false
  | some (.bool b) => b
  | some (.num n) => n != 0
  | some (.str s) => s != ""
  | some (.arr _) => true
  | some (.obj _) => true

/-- The expression `a || d` with a JSON default `d`. -/
def jsOr (a : JsVal) (d : Json) : Json :=
  match a with
  | some v => if truthy (some v) then v else d
  | none => d

/-- The expression `b !== undefined ? b : e`. -/
def orExisting (b e : JsVal) : JsVal :=
  match b with
  | some v => some v
  | none => e

/-- Own-property read `o.k` on an object given by its member list. -/
def lookup {α : Type} : List (String × α) → String → Option α
  | [], _ => none
  | (k', v) :: t, k => if k' = k then some v else lookup t k

/-- Property definition `o.k = v` on a member list: an existing key keeps its
position and takes the new value, a new key is appended. -/
def assign {α : Type} : List (String × α) → String → α → List (String × α)
  | [], k, v => [(k, v)]
  | (k', v') :: t, k, v => if k' = k then (k', v) :: t else (k', v') :: assign t k v

/-- Defines the members of `src` on `o` one after the other, as deserialising a
document or spreading an object does. -/
def assignAll {α : Type} (o src : List (String × α)) : List (String × α) :=
  src.foldl (fun acc m => assign acc m.1 m.2) o

/-- What a handler's `try` block can throw. -/
inductive Err where
  | typeError
  | invalidId
  | store
deriving DecidableEq, Repr

instance {ε α : Type} [DecidableEq ε] [DecidableEq α] : DecidableEq (Except ε α)
  | .ok a, .ok b =>
    if h : a = b then isTrue (by rw [h]) else isFalse (by intro e; cases e; exact h rfl)
  | .error a, .error b =>
    if h : a = b then isTrue (by rw [h]) else isFalse (by intro e; cases e; exact h rfl)
  | .ok _, .error _ => isFalse (by intro e; cases e)
  | .error _, .ok _ => isFalse (by intro e; cases e)

/-- The read `x.k` for the names `tagged` and `title` (which no built-in
prototype defines): a `TypeError` on `undefined` and `null`, the own property
on an object, `undefined` on any other value. -/
def prop (x : JsVal) (k : String) : Except Err JsVal :=
  match x with
  | none => .error .typeError
  | some .null => .error .typeError
  | some (.obj ms) => .ok (lookup ms k)
  | some _ => .ok none

/-- Values inside an object literal built by a handler. -/
inductive Lit where
  | val (v : JsVal)
  | obj (ms : List (String × Lit))

mutual
/-- Serialisation of a literal for the store: `undefined` becomes `null`. -/
def Lit.toBson : Lit → Json
  | .val v => v.getD .null
  | .obj ms => .obj (toBsonMembers ms)
/-- Serialisation of the members of an object literal. -/
def toBsonMembers : List (String × Lit) → List (String × Json)
  | [] => []
  | (k, v) :: t => (k, v.toBson) :: toBsonMembers t
end

/-! ## Numbers, `parseInt` and `ObjectId` -/

/-- White space skipped by `parseInt` (ECMAScript `WhiteSpace` and
`LineTerminator`). -/
def isWhiteSpace (c : Char) : Bool :=
  let n := c.toNat
  n == 9 || n == 10 || n == 11 || n == 12 || n == 13 || n == 32 || n == 160 ||
  n == 5760 || (8192 ≤ n && n ≤ 8202) || n == 8232 || n == 8233 || n == 8239 ||
  n == 8287 || n == 12288 || n == 65279

/-- Value of a digit character, for radix up to 16. -/
def digitValue (c : Char) : Option Nat :=
  let n := c.toNat
  if 48 ≤ n ∧ n ≤ 57 then some (n - 48)
  else if 97 ≤ n ∧ n ≤ 102 then some (n - 87)
  else if 65 ≤ n ∧ n ≤ 70 then some (n - 55)
  else none

/-- The digits of the longest prefix made of radix-`r` digits. -/
def takeDigits (r : Nat) : List Char → List Nat
  | [] => []
  | c :: t =>
    match digitValue c with
    | some d => if d < r then d :: takeDigits r t else []
    | none => []

/-- Value of a digit sequence in radix `r`. -/
def digitsValue (r : Nat) (ds : List Nat) : Nat :=
  ds.foldl (fun acc d => acc * r + d) 0

/-- The mathematical integer `sign × mathInt` that `parseInt(s)` (without a
radix argument) reads from a string; `none` when there is no digit.  Leading
white space is skipped, then an optional sign, then an optional `0x`/`0X`
(radix 16), then the longest run of digits. -/
def mathInt (s : String) : Option Int :=
  let cs := s.toList.dropWhile isWhiteSpace
  let signed : Bool × List Char :=
    match cs with
    | '-' :: t => (true, t)
    | '+' :: t => (false, t)
    | _ => (false, cs)
  let radixed : Nat × List Char :=
    match signed.2 with
    | '0' :: 'x' :: t => (16, t)
    | '0' :: 'X' :: t => (16, t)
    | _ => (10, signed.2)
  let ds := takeDigits radixed.1 radixed.2
  if ds = [] then none
  else
    let v : Int := (digitsValue radixed.1 ds : Nat)
    some (if signed.1 then -v else v)

/-- A JavaScript number as these handlers meet it: `NaN`, an infinity, or an
integer-valued double (negative zero is identified with zero). -/
inductive Num where
  | nan
  | inf (negative : Bool)
  | fin (n : Int)
deriving DecidableEq, Repr

/-- Number of halvings that bring `n` below 2^53, the size of a double's
significand. -/
def excessBits : Nat → Nat → Nat
  | 0, _ => 0
  | fuel + 1, n => if n < 2 ^ 53 then 0 else 1 + excessBits fuel (n / 2)

/-- The double nearest to a natural number (ties to even); `none` when it
rounds to infinity.  The number is cut to a 53-bit significand `q` and an
exponent `e`; the largest double has `e = 971`, so that the rounded value is
finite exactly when it is below 2^1024. -/
def roundNat (n : Nat) : Option Nat :=
  let e := excessBits n n
  let q := n / 2 ^ e
  let r := n % 2 ^ e
  let q' := if 2 ^ e < 2 * r ∨ (2 * r = 2 ^ e ∧ q % 2 = 1) then q + 1 else q
  if e < 971 ∨ (e = 971 ∧ q' < 2 ^ 53) then some (q' * 2 ^ e) else none

/-- The JavaScript number of a mathematical integer: the nearest double. -/
def Num.ofInt (n : Int) : Num :=
  match roundNat n.natAbs with
  | some m => .fin (if n < 0 then -(m : Int) else (m : Int))
  | none => .inf (decide (n < 0))

/-- The subtraction `a - b` of doubles. -/
def Num.sub : Num → Num → Num
  | .nan, _ => .nan
  | _, .nan => .nan
  | .inf s, .inf t => if s = t then .nan else .inf s
  | .inf s, .fin _ => .inf s
  | .fin _, .inf t => .inf (!t)
  | .fin a, .fin b => Num.ofInt (a - b)

/-- The multiplication `a * b` of doubles. -/
def Num.mul : Num → Num → Num
  | .nan, _ => .nan
  | _, .nan => .nan
  | .inf s, .inf t => .inf (s != t)
  | .inf s, .fin b => if b = 0 then .nan else .inf (s != decide (b < 0))
  | .fin a, .inf t => if a = 0 then .nan else .inf (decide (a < 0) != t)
  | .fin a, .fin b => Num.ofInt (a * b)

/-- Whether a number is falsy: `NaN` and zero are. -/
def Num.falsy : Num → Bool
  | .nan => true
  | .inf _ => false
  | .fin n => n == 0

/-- The built-in `parseInt(s)` without a radix argument: `NaN` when the string
has no leading integer, and otherwise the double nearest to that integer (for
more than 20 significant decimal digits the language lets an engine
approximate the later ones; the nearest double is taken here as well). -/
def parseInt (s : String) : Num :=
  match mathInt s with
  | none => .nan
  | some n => Num.ofInt n

/-- The call `parseInt(q)` on a query parameter: an absent parameter is
`undefined`, which `parseInt` converts to the string "undefined". -/
def parseIntParam (q : Option String) : Num :=
  parseInt (q.getD "undefined")

/-- The expression `n || d` for numbers. -/
def numOr (n d : Num) : Num :=
  if n.falsy then d else n

/-- Store identifiers: the 96-bit value of an `ObjectId`. -/
abbrev ObjId := Nat

/-- Value of a string of hexadecimal digits. -/
def hexValue : List Char → Nat → Option Nat
  | [], acc => some acc
  | c :: t, acc =>
    match digitValue c with
    | some d => hexValue t (acc * 16 + d)
    | none => none

/-- The constructor `new ObjectId(s)` on a string: 24 hexadecimal digits, and
an exception otherwise.  The statements below depend on it only through
whether a string parses and to which identifier. -/
def newObjectId (s : String) : Except Err ObjId :=
  if s.length = 24 then
    match hexValue s.toList 0 with
    | some n => .ok n
    | none => .error .invalidId
  else .error .invalidId

/-! ## The document store -/

/-- A stored document: its identifier `_id` and its other fields. -/
structure Doc where
  _id : ObjId
  fields : List (String × Json)
deriving DecidableEq

/-- The database `Eventsdb`: the collections `events` and `nudges`. -/
structure Db where
  events : List Doc
  nudges : List Doc
deriving DecidableEq

/-- What the handlers do not control: whether `client.connect()` succeeds,
whether the `n`-th store call of the request (counted from 0) throws, the
identifier generated for an inserted document, the store's ordering of values
(`le a b`: `a` sorts no later than `b` ascending), and the store's reply to a
cursor whose skip or limit is not a finite integer below 2^63 in magnitude. -/
structure Env where
  connects : Bool
  fault : Nat → Bool
  newId : ObjId
  le : Json → Json → Bool
  irregularPage : Except Err (List Doc)

/-- The sort documents `{}` and `{ schedule: -1 }` passed to `.sort`. -/
inductive SortSpec where
  | natural
  | scheduleDesc
deriving DecidableEq, Repr

/-- The call `findOne({ _id: i })`: the first document with that identifier. -/
def findOne (docs : List Doc) (i : ObjId) : Option Doc :=
  docs.find? (fun d => d._id = i)

/-- The sort key of a document under `{ schedule: -1 }`; a missing field sorts
as `null`. -/
def scheduleOf (d : Doc) : Json :=
  (lookup d.fields "schedule").getD .null

/-- The documents in the order of `.sort(spec)`; `{ schedule: -1 }` orders by
`schedule` descending under the store's ordering `le`. -/
def sortDocs (le : Json → Json → Bool) (spec : SortSpec) (docs : List Doc) : List Doc :=
  match spec with
  | .natural => docs
  | .scheduleDesc =>
    docs.insertionSort (fun a b => le (scheduleOf b) (scheduleOf a) = true)

/-- The cursor `find({}).sort(spec).skip(skip).limit(limit).toArray()` for a
skip and limit that are finite integers below 2^63 in magnitude: a negative
skip is rejected by the store, a limit of 0 is no limit, and a negative limit
`-n` returns at most `n` documents.  For any other skip or limit the reply is
`irregular`. -/
def findPage (le : Json → Json → Bool) (irregular : Except Err (List Doc)) (docs : List Doc)
    (spec : SortSpec) (skip limit : Num) : Except Err (List Doc) :=
  match skip, limit with
  | .fin s, .fin l =>
    if s.natAbs < 2 ^ 63 ∧ l.natAbs < 2 ^ 63 then
      if s < 0 then .error .store
      else
        let rest := (sortDocs le spec docs).drop s.toNat
        .ok (if l = 0 then rest else rest.take l.natAbs)
    else irregular
  | _, _ => irregular

/-- The call `insertOne(doc)` with generated identifier `i`: a duplicate
identifier is rejected, otherwise the document is appended. -/
def insertOne (docs : List Doc) (i : ObjId) (fields : List (String × Json)) :
    Except Err (List Doc × ObjId) :=
  if (findOne docs i).isSome then .error .store
  else .ok (docs ++ [⟨i, fields⟩], i)

/-- Replaces the first document with identifier `i`. -/
def replaceFirst : List Doc → ObjId → Doc → List Doc
  | [], _, _ => []
  | d :: t, i, n => if d._id = i then n :: t else d :: replaceFirst t i n

/-- The result of `updateOne`. -/
structure UpdateResult where
  matchedCount : Nat
  modifiedCount : Nat
deriving DecidableEq, Repr

/-- The call `updateOne({ _id: i }, { $set: u })`: setting `_id` to a different
value is rejected; otherwise each field of `u` is set on the first matching
document, and `modifiedCount` is 1 exactly when that changes the document. -/
def updateOne (docs : List Doc) (i : ObjId) (u : Doc) : Except Err (List Doc × UpdateResult) :=
  match findOne docs i with
  | none => .ok (docs, ⟨0, 0⟩)
  | some d =>
    if u._id ≠ d._id then .error .store
    else
      let fields := assignAll d.fields u.fields
      if fields = d.fields then .ok (docs, ⟨1, 0⟩)
      else .ok (replaceFirst docs i ⟨d._id, fields⟩, ⟨1, 1⟩)

/-- Removes the first document with identifier `i`. -/
def removeFirst : List Doc → ObjId → List Doc
  | [], _ => []
  | d :: t, i => if d._id = i then t else d :: removeFirst t i

/-- The call `deleteOne({ _id: i })`: the remaining documents and
`deletedCount`. -/
def deleteOne (docs : List Doc) (i : ObjId) : List Doc × Nat :=
  match findOne docs i with
  | none => (docs, 0)
  | some _ => (removeFirst docs i, 1)

/-! ## Requests and responses -/

/-- The JSON payload of a response. -/
inductive Payload where
  | doc (d : Doc)
  | docs (ds : List Doc)
  | id (i : ObjId)
  | message (s : String)
  | error (s : String)
deriving DecidableEq

/-- How a request ends: a response with a status and a payload, no response at
all (the handler returns without answering), or `process.exit(1)`. -/
inductive Outcome where
  | sent (status : Nat) (payload : Payload)
  | noResponse
  | processExit
deriving DecidableEq

/-- The store calls a handler issues. -/
inductive Call where
  | findOne (i : ObjId)
  | findAll
  | findPage (spec : SortSpec) (skip limit : Num)
  | insertOne (fields : List (String × Json))
  | updateOne (i : ObjId) (set : Doc)
  | deleteOne (i : ObjId)
  | insertNudge (fields : List (String × Json))
deriving DecidableEq

/-- The effect of handling one request: how it ends, the database afterwards,
and the store calls issued, in order. -/
structure Result where
  outcome : Outcome
  db : Db
  calls : List Call
deriving DecidableEq

/-- The response `res.status(500).json({ error: "Internal server error" })` of
every `catch` block but the last. -/
def internalError : Outcome := .sent 500 (.error "Internal server error")

/-- The response `res.status(404).json({ error: "Event not found" })`. -/
def notFound : Outcome := .sent 404 (.error "Event not found")

/-- A request body as parsed by `express.json()`: the members of a JSON object. -/
abbrev Body := List (String × Json)

/-! ## The handlers -/

/-- The function `connectToDatabase`: the database handle when
`client.connect()` succeeds; `none` stands for its `catch` block, which calls
`process.exit(1)`, so that the calling handler never resumes. -/
def connectToDatabase (env : Env) (db : Db) : Option Db :=
  if env.connects then some db else none

/-- The branch `find({}).toArray()` of `GET /api/v3/app/events`. -/
def listEvents (env : Env) (db : Db) : Result :=
  if env.fault 0 then ⟨internalError, db, [.findAll]⟩
  else ⟨.sent 200 (.docs db.events), db, [.findAll]⟩

/-- Handler of `GET /api/v3/app/events`; `id` is `req.query.id`.  A failed
connection ends in `process.exit(1)` inside `connectToDatabase`. -/
def getEvents (env : Env) (db : Db) (id : Option String) : Result :=
  match connectToDatabase env db with
  | none => ⟨.processExit, db, []⟩
  | some db =>
    match id with
    | none => listEvents env db
    | some eventId =>
      if eventId = "" then listEvents env db
      else
        match newObjectId eventId with
        | .error _ => ⟨internalError, db, []⟩
        | .ok oid =>
          if env.fault 0 then ⟨internalError, db, [.findOne oid]⟩
          else
            match findOne db.events oid with
            | some event => ⟨.sent 200 (.doc event), db, [.findOne oid]⟩
            | none => ⟨notFound, db, [.findOne oid]⟩

/-- The sort document chosen by `type === 'latest' ? { schedule: -1 } : {}`. -/
def sortFor (type : Option String) : SortSpec :=
  if type = some "latest" then .scheduleDesc else .natural

/-- The line `const limit = parseInt(req.query.limit) || 10`. -/
def effectiveLimit (limit : Option String) : Num :=
  numOr (parseIntParam limit) (.fin 10)

/-- The line `const page = parseInt(req.query.page) || 1`. -/
def effectivePage (page : Option String) : Num :=
  numOr (parseIntParam page) (.fin 1)

/-- The line `const skip = (page - 1) * limit`, in double arithmetic. -/
def skipOf (page limit : Num) : Num :=
  Num.mul (Num.sub page (.fin 1)) limit

/-- Handler of `GET /api/v3/app/events_pagination`; the arguments are
`req.query.type`, `req.query.limit` and `req.query.page`. -/
def getEventsPagination (env : Env) (db : Db) (type limit page : Option String) : Result :=
  match connectToDatabase env db with
  | none => ⟨.processExit, db, []⟩
  | some db =>
    let lim := effectiveLimit limit
    let pg := effectivePage page
    let skip := skipOf pg lim
    let call := Call.findPage (sortFor type) skip lim
    if env.fault 0 then ⟨internalError, db, [call]⟩
    else
      match findPage env.le env.irregularPage db.events (sortFor type) skip lim with
      | .error _ => ⟨internalError, db, [call]⟩
      | .ok events => ⟨.sent 200 (.docs events), db, [call]⟩

/-- The object literal `event` of `POST /api/v3/app/events`. -/
def eventLiteral (body : Body) : List (String × Lit) :=
  [ ("type", .val (some (.str "event"))),
    ("uid", .val (lookup body "uid")),
    ("name", .val (lookup body "name")),
    ("tagline", .val (lookup body "tagline")),
    ("schedule", .val (lookup body "schedule")),
    ("description", .val (lookup body "description")),
    ("files", .val (lookup body "files")),
    ("moderator", .val (lookup body "moderator")),
    ("category", .val (lookup body "category")),
    ("sub_category", .val (lookup body "sub_category")),
    ("rigor_rank", .val (lookup body "rigor_rank")),
    ("attendees", .val (some (.arr []))),
    ("nudge", .obj
      [ ("tagged", .val (some (jsOr (lookup body "tagged") (.bool false)))),
        ("title", .val (some (jsOr (lookup body "nudgeTitle") (.str "")))) ]) ]

/-- Handler of `POST /api/v3/app/events`. -/
def postEvent (env : Env) (db : Db) (body : Body) : Result :=
  match connectToDatabase env db with
  | none => ⟨.processExit, db, []⟩
  | some db =>
    let event := toBsonMembers (eventLiteral body)
    if env.fault 0 then ⟨internalError, db, [.insertOne event]⟩
    else
      match insertOne db.events env.newId event with
      | .error _ => ⟨internalError, db, [.insertOne event]⟩
      | .ok (events, insertedId) =>
        ⟨.sent 201 (.id insertedId), { db with events := events }, [.insertOne event]⟩

/-- Keeps the first member of each key. -/
def dedupKeys {α : Type} : List (String × α) → List (String × α)
  | [] => []
  | (k, v) :: t => (k, v) :: (dedupKeys t).filter (fun m => !decide (m.1 = k))

/-- The own properties of the fetched document `existingEvent` other than
`_id`: a JavaScript object holds each field name once, with the value a read
of the stored field yields. -/
def existingObject (existing : Doc) : List (String × Json) :=
  dedupKeys existing.fields

/-- The spread `...existingEvent` followed by the nine mutable fields of the
object literal `updateData`, each `req.body.f !== undefined ? req.body.f :
existingEvent.f`. -/
def mergedFields (ex : List (String × Json)) (body : Body) : List (String × Lit) :=
  let o : List (String × Lit) := ex.map (fun m => (m.1, Lit.val (some m.2)))
  let o := assign o "name" (.val (orExisting (lookup body "name") (lookup ex "name")))
  let o := assign o "files" (.val (orExisting (lookup body "files") (lookup ex "files")))
  let o := assign o "tagline" (.val (orExisting (lookup body "tagline") (lookup ex "tagline")))
  let o := assign o "schedule" (.val (orExisting (lookup body "schedule") (lookup ex "schedule")))
  let o := assign o "description"
    (.val (orExisting (lookup body "description") (lookup ex "description")))
  let o := assign o "moderator" (.val (orExisting (lookup body "moderator") (lookup ex "moderator")))
  let o := assign o "category" (.val (orExisting (lookup body "category") (lookup ex "category")))
  let o := assign o "sub_category"
    (.val (orExisting (lookup body "sub_category") (lookup ex "sub_category")))
  assign o "rigor_rank" (.val (orExisting (lookup body "rigor_rank") (lookup ex "rigor_rank")))

/-- One member of the `nudge` literal of `updateData`:
`req.body[bodyKey] !== undefined ? req.body[bodyKey] : existingEvent.nudge[key]`;
the read of `existingEvent.nudge[key]` happens, and can throw, only when the
body lacks `bodyKey`. -/
def nudgeMember (ex : List (String × Json)) (body : Body) (bodyKey key : String) :
    Except Err JsVal :=
  match lookup body bodyKey with
  | some v => .ok (some v)
  | none => prop (lookup ex "nudge") key

/-- The object literal `updateData` of `PUT /api/v3/app/events/:id` without its
`_id`. -/
def updateData (existing : Doc) (body : Body) : Except Err (List (String × Lit)) :=
  let ex := existingObject existing
  match nudgeMember ex body "tagged" "tagged" with
  | .error e => .error e
  | .ok tagged =>
    match nudgeMember ex body "nudgeTitle" "title" with
    | .error e => .error e
    | .ok title =>
      .ok (assign (mergedFields ex body) "nudge"
        (.obj [("tagged", .val tagged), ("title", .val title)]))

/-- Handler of `PUT /api/v3/app/events/:id`; `id` is `req.params.id`. -/
def putEvent (env : Env) (db : Db) (id : String) (body : Body) : Result :=
  match connectToDatabase env db with
  | none => ⟨.processExit, db, []⟩
  | some db =>
    match newObjectId id with
    | .error _ => ⟨internalError, db, []⟩
    | .ok oid =>
      if env.fault 0 then ⟨internalError, db, [.findOne oid]⟩
      else
        match findOne db.events oid with
        | none => ⟨notFound, db, [.findOne oid]⟩
        | some existingEvent =>
          match updateData existingEvent body with
          | .error _ => ⟨internalError, db, [.findOne oid]⟩
          | .ok lit =>
            let set : Doc := ⟨existingEvent._id, toBsonMembers lit⟩
            let calls := [Call.findOne oid, Call.updateOne oid set]
            if env.fault 1 then ⟨internalError, db, calls⟩
            else
              match updateOne db.events oid set with
              | .error _ => ⟨internalError, db, calls⟩
              | .ok (events, result) =>
                if result.modifiedCount = 1 then
                  ⟨.sent 200 (.message "Event updated"), { db with events := events }, calls⟩
                else ⟨notFound, { db with events := events }, calls⟩

/-- Handler of `DELETE /api/v3/app/events/:id`; `id` is `req.params.id`. -/
def deleteEvent (env : Env) (db : Db) (id : String) : Result :=
  match connectToDatabase env db with
  | none => ⟨.processExit, db, []⟩
  | some db =>
    match newObjectId id with
    | .error _ => ⟨internalError, db, []⟩
    | .ok oid =>
      if env.fault 0 then ⟨internalError, db, [.deleteOne oid]⟩
      else
        let r := deleteOne db.events oid
        if r.2 = 1 then
          ⟨.sent 200 (.message "Event deleted"), { db with events := r.1 }, [.deleteOne oid]⟩
        else ⟨notFound, { db with events := r.1 }, [.deleteOne oid]⟩

/-- The object literal `nudge` of `POST /api/v3/app/events/nudge`. -/
def nudgeLiteral (body : Body) : List (String × Lit) :=
  [ ("tag", .val (lookup body "tag")),
    ("title", .val (lookup body "title")),
    ("coverImage", .val (lookup body "coverImage")),
    ("schedule", .obj
      [ ("date", .val (lookup body "date")),
        ("time", .obj
          [ ("start", .val (lookup body "startTime")),
            ("end", .val (lookup body "endTime")) ]) ]),
    ("description", .val (lookup body "description")),
    ("icon", .val (lookup body "icon")),
    ("invitationText", .val (lookup body "invitationText")) ]

/-- Handler of `POST /api/v3/app/events/nudge`: its `catch` block only logs, so
a failure after connecting ends without a response. -/
def postNudge (env : Env) (db : Db) (body : Body) : Result :=
  match connectToDatabase env db with
  | none => ⟨.processExit, db, []⟩
  | some db =>
    let nudge := toBsonMembers (nudgeLiteral body)
    if env.fault 0 then ⟨.noResponse, db, [.insertNudge nudge]⟩
    else
      match insertOne db.nudges env.newId nudge with
      | .error _ => ⟨.noResponse, db, [.insertNudge nudge]⟩
      | .ok (nudges, insertedId) =>
        ⟨.sent 201 (.id insertedId), { db with nudges := nudges }, [.insertNudge nudge]⟩

/-! ## Vocabulary of the statements -/

/-- The nine top-level fields `PUT` merges from the body. -/
def mutableFields : List String :=
  ["name", "files", "tagline", "schedule", "description", "moderator", "category",
    "sub_category", "rigor_rank"]

/-- The ten fields `POST` copies from the body. -/
def createFields : List String :=
  ["uid", "name", "tagline", "schedule", "description", "files", "moderator", "category",
    "sub_category", "rigor_rank"]

/-- The expression `a ?? d`, which the specification uses for the `nudge`
defaults of `POST`: the default is taken only for `undefined` and `null`. -/
def specNullish (a : JsVal) (d : Json) : Json :=
  match a with
  | none => d
  | some .null => d
  | some v => v

/-- The `nudge` object the specification describes for `POST`:
`{tagged: tagged ?? false, title: nudgeTitle ?? ""}`. -/
def specNudge (body : Body) : Json :=
  .obj [("tagged", specNullish (lookup body "tagged") (.bool false)),
    ("title", specNullish (lookup body "nudgeTitle") (.str ""))]

/-- Whether a value is an object with exactly the two fields `tagged` and
`title`, in either order. -/
def isNudgeObject : Json → Bool
  | .obj [(a, _), (b, _)] =>
    (a == "tagged" && b == "title") || (a == "title" && b == "tagged")
  | _ => false

/-- Whether a stored event has `nudge` as an object with exactly the two fields
`tagged` and `title`. -/
def hasNudge (d : Doc) : Bool :=
  match lookup d.fields "nudge" with
  | some n => isNudgeObject n
  | none => false

/-- Whether a stored document has the shape the handlers write: each of the
nine mutable fields present and `nudge` equal to an object `{tagged, title}`. -/
def isEventShaped (d : Doc) : Bool :=
  mutableFields.all (fun k => (lookup d.fields k).isSome) &&
    match lookup d.fields "nudge" with
    | some (.obj [(a, _), (b, _)]) => a == "tagged" && b == "title"
    | _ => false

/-- An environment in which the store is reachable and no call fails. -/
def healthyEnv (newId : ObjId) : Env :=
  ⟨true, fun _ => false, newId, fun _ _ => true, .error .store⟩

/-- An environment in which `client.connect()` fails. -/
def unreachableEnv : Env :=
  ⟨false, fun _ => false, 2, fun _ _ => true, .error .store⟩

/-- An environment in which the store is reachable and every store call
throws. -/
def failingEnv : Env :=
  ⟨true, fun _ => true, 2, fun _ _ => true, .error .store⟩

/-- The document `POST` stores for the body `{name: "Meetup", schedule: "2024-05-01"}`. -/
def sampleEvent : Doc :=
  ⟨1, [("type", .str "event"), ("uid", .null), ("name", .str "Meetup"), ("tagline", .null),
    ("schedule", .str "2024-05-01"), ("description", .null), ("files", .null),
    ("moderator", .null), ("category", .null), ("sub_category", .null), ("rigor_rank", .null),
    ("attendees", .arr []), ("nudge", .obj [("tagged", .bool true), ("title", .str "Join")])]⟩

/-- A stored event that holds only `type`, `name` and `nudge`. -/
def sparseEvent : Doc :=
  ⟨1, [("type", .str "event"), ("name", .str "Meetup"),
    ("nudge", .obj [("tagged", .bool true), ("title", .str "Join")])]⟩

/-- A stored event without a `nudge` field. -/
def bareEvent : Doc :=
  ⟨1, [("type", .str "event"), ("name", .str "Meetup")]⟩

/-- The sample event with its `nudge` stored as `{title, tagged}`. -/
def swappedEvent : Doc :=
  ⟨1, [("type", .str "event"), ("uid", .null), ("name", .str "Meetup"), ("tagline", .null),
    ("schedule", .str "2024-05-01"), ("description", .null), ("files", .null),
    ("moderator", .null), ("category", .null), ("sub_category", .null), ("rigor_rank", .null),
    ("attendees", .arr []), ("nudge", .obj [("title", .str "Join"), ("tagged", .bool true)])]⟩

/-- A database holding `sampleEvent` only. -/
def sampleDb : Db := ⟨[sampleEvent], []⟩

/-- The identifier string of `sampleEvent`. -/
def sampleId : String := "000000000000000000000001"

/-- A total preorder on values for the examples: numbers by value, every other
value as 0. -/
def sampleLe (a b : Json) : Bool :=
  let key : Json → Int := fun j => match j with
    | .num n => n
    | _ => 0
  decide (key a ≤ key b)

/-- A healthy environment whose store orders values by `sampleLe`. -/
def orderedEnv : Env :=
  ⟨true, fun _ => false, 100, sampleLe, .error .store⟩

/-- A collection of 2^53 + 1 events. -/
def hugeEvents : List Doc :=
  List.replicate (2 ^ 53 + 1) ⟨0, []⟩

/-- Twelve events with identifiers and schedules 0 to 11, in stored order. -/
def pageDb : Db :=
  ⟨(List.range 12).map (fun i => ⟨i, [("schedule", .num i)]⟩), []⟩


/-! ## Lemmas on objects -/

theorem connectToDatabase_connected (env : Env) (db : Db) (h : env.connects = true) :
    connectToDatabase env db = some db := by
  simp [connectToDatabase, h]

theorem lookup_assign {α : Type} (o : List (String × α)) (k : String) (v : α) (k' : String) :
    lookup (assign o k v) k' = if k = k' then some v else lookup o k' := by
  induction o with
  | nil => simp [assign, lookup]
  | cons m t ih =>
    obtain ⟨a, b⟩ := m
    by_cases h : a = k
    · subst h
      by_cases h' : a = k' <;> simp [assign, lookup, h']
    · simp only [assign, if_neg h, lookup, ih]
      by_cases h' : a = k'
      · subst h'
        have : ¬ k = a := fun e => h e.symm
        simp [this]
      · simp [h']

theorem lookup_map {α β : Type} (f : α → β) (o : List (String × α)) (k : String) :
    lookup (o.map (fun m => (m.1, f m.2))) k = (lookup o k).map f := by
  induction o with
  | nil => simp [lookup]
  | cons m t ih =>
    obtain ⟨a, b⟩ := m
    by_cases h : a = k <;> simp [lookup, h, ih]

theorem lookup_toBsonMembers (ms : List (String × Lit)) (k : String) :
    lookup (toBsonMembers ms) k = (lookup ms k).map Lit.toBson := by
  induction ms with
  | nil => simp [toBsonMembers, lookup]
  | cons m t ih =>
    obtain ⟨a, b⟩ := m
    by_cases h : a = k <;> simp [toBsonMembers, lookup, h, ih]

theorem lookup_filter_ne {α : Type} (o : List (String × α)) (k k' : String) (h : k ≠ k') :
    lookup (o.filter (fun m => !decide (m.1 = k))) k' = lookup o k' := by
  induction o with
  | nil => simp [lookup]
  | cons m t ih =>
    obtain ⟨a, b⟩ := m
    by_cases ha : a = k
    · subst ha
      simp [List.filter, lookup, h, ih]
    · by_cases hk : a = k'
      · subst hk
        simp [List.filter, lookup, ha]
      · simp [List.filter, lookup, ha, hk, ih]

theorem lookup_dedupKeys {α : Type} (o : List (String × α)) (k : String) :
    lookup (dedupKeys o) k = lookup o k := by
  induction o with
  | nil => simp [dedupKeys]
  | cons m t ih =>
    obtain ⟨a, b⟩ := m
    by_cases h : a = k
    · simp [dedupKeys, lookup, h]
    · simp only [dedupKeys, lookup, if_neg h]
      rw [lookup_filter_ne _ _ _ h, ih]

theorem lookup_mergedFields (ex : List (String × Json)) (body : Body) (k : String) :
    lookup (mergedFields ex body) k =
      if k ∈ mutableFields then some (.val (orExisting (lookup body k) (lookup ex k)))
      else (lookup ex k).map (fun j => Lit.val (some j)) := by
  simp only [mergedFields, lookup_assign, lookup_map, mutableFields, List.mem_cons,
    List.mem_singleton, List.not_mem_nil, or_false]
  by_cases h1 : "rigor_rank" = k
  · subst h1; simp
  by_cases h2 : "sub_category" = k
  · subst h2; simp
  by_cases h3 : "category" = k
  · subst h3; simp
  by_cases h4 : "moderator" = k
  · subst h4; simp
  by_cases h5 : "description" = k
  · subst h5; simp
  by_cases h6 : "schedule" = k
  · subst h6; simp
  by_cases h7 : "tagline" = k
  · subst h7; simp
  by_cases h8 : "files" = k
  · subst h8; simp
  by_cases h9 : "name" = k
  · subst h9; simp
  have e1 : ¬ k = "rigor_rank" := fun e => h1 e.symm
  have e2 : ¬ k = "sub_category" := fun e => h2 e.symm
  have e3 : ¬ k = "category" := fun e => h3 e.symm
  have e4 : ¬ k = "moderator" := fun e => h4 e.symm
  have e5 : ¬ k = "description" := fun e => h5 e.symm
  have e6 : ¬ k = "schedule" := fun e => h6 e.symm
  have e7 : ¬ k = "tagline" := fun e => h7 e.symm
  have e8 : ¬ k = "files" := fun e => h8 e.symm
  have e9 : ¬ k = "name" := fun e => h9 e.symm
  simp only [h1, h2, h3, h4, h5, h6, h7, h8, h9, e1, e2, e3, e4, e5, e6, e7, e8, e9, if_false,
    or_self]
  exact lookup_map (fun j => Lit.val (some j)) ex k

theorem prop_ok (n : Json) (k : String) (h : n ≠ .null) : ∃ x, prop (some n) k = .ok x := by
  cases n with
  | null => exact absurd rfl h
  | bool b => exact ⟨none, rfl⟩
  | num m => exact ⟨none, rfl⟩
  | str s => exact ⟨none, rfl⟩
  | arr xs => exact ⟨none, rfl⟩
  | obj ms => exact ⟨lookup ms k, rfl⟩

theorem nudgeMember_ok (ex : List (String × Json)) (body : Body) (bodyKey key : String)
    (n : Json) (hn : lookup ex "nudge" = some n) (hnn : n ≠ .null) :
    ∃ x, nudgeMember ex body bodyKey key = .ok x ∧
      (∀ v, lookup body bodyKey = some v → x = some v) ∧
      (lookup body bodyKey = none → prop (some n) key = .ok x) := by
  unfold nudgeMember
  cases hb : lookup body bodyKey with
  | some v => exact ⟨some v, rfl, fun w hw => (by cases hw; rfl), fun h => (by cases h)⟩
  | none =>
    obtain ⟨x, hx⟩ := prop_ok n key hnn
    exact ⟨x, by simp [hn, hx], fun v hv => (by cases hv), fun _ => hx⟩

/-- C1: `PUT /events/:id` on an existing event (whose `nudge` can be read, that
is, is present and not `null`) issues one update whose merged document holds,
for each of the nine mutable fields and for `nudge.tagged` / `nudge.title`, the
body's value whenever the body has the key (whatever the value, `false`, `0`,
the empty string and `null` included) and the stored value whenever the body
lacks the key. -/
theorem put_merged_document (env : Env) (db : Db) (id : String) (body : Body) (oid : ObjId)
    (existing : Doc) (nudge : Json)
    (hc : env.connects = true) (hid : newObjectId id = .ok oid) (hf : env.fault 0 = false)
    (hex : findOne db.events oid = some existing)
    (hn : lookup existing.fields "nudge" = some nudge) (hnn : nudge ≠ .null) :
    ∃ (set : Doc) (tagged title : Json),
      (putEvent env db id body).calls = [.findOne oid, .updateOne oid set] ∧
      set._id = existing._id ∧
      (∀ k ∈ mutableFields,
        (∀ v, lookup body k = some v → lookup set.fields k = some v) ∧
        (lookup body k = none →
          ∀ w, lookup existing.fields k = some w → lookup set.fields k = some w)) ∧
      lookup set.fields "nudge" = some (.obj [("tagged", tagged), ("title", title)]) ∧
      (∀ v, lookup body "tagged" = some v → tagged = v) ∧
      (lookup body "tagged" = none →
        ∀ w, prop (some nudge) "tagged" = .ok (some w) → tagged = w) ∧
      (∀ v, lookup body "nudgeTitle" = some v → title = v) ∧
      (lookup body "nudgeTitle" = none →
        ∀ w, prop (some nudge) "title" = .ok (some w) → title = w) := by
  have hn' : lookup (existingObject existing) "nudge" = some nudge := by
    rw [existingObject, lookup_dedupKeys]; exact hn
  obtain ⟨tg, htg, htg1, htg2⟩ :=
    nudgeMember_ok (existingObject existing) body "tagged" "tagged" nudge hn' hnn
  obtain ⟨ti, hti, hti1, hti2⟩ :=
    nudgeMember_ok (existingObject existing) body "nudgeTitle" "title" nudge hn' hnn
  have hu : updateData existing body = .ok (assign (mergedFields (existingObject existing) body)
      "nudge" (.obj [("tagged", .val tg), ("title", .val ti)])) := by
    simp [updateData, htg, hti]
  refine ⟨⟨existing._id, toBsonMembers (assign (mergedFields (existingObject existing) body)
      "nudge" (.obj [("tagged", .val tg), ("title", .val ti)]))⟩, tg.getD .null, ti.getD .null,
      ?_, rfl, ?_, ?_, ?_, ?_, ?_, ?_⟩
  · simp only [putEvent, connectToDatabase_connected env db hc, hid, hf, hex, hu]
    by_cases h1 : env.fault 1 = true
    · simp [h1]
    · simp only [h1]
      cases updateOne db.events oid _ with
      | error e => simp
      | ok r =>
        by_cases hm : r.2.modifiedCount = 1 <;> simp [hm]
  · intro k hk
    have hkn : ¬ "nudge" = k := by
      intro e; subst e; simp [mutableFields] at hk
    simp only [lookup_toBsonMembers, lookup_assign, if_neg hkn, lookup_mergedFields, if_pos hk,
      existingObject, lookup_dedupKeys]
    constructor
    · intro v hv
      simp [hv, orExisting, Lit.toBson]
    · intro hb w hw
      simp [hb, hw, orExisting, Lit.toBson]
  · simp [lookup_toBsonMembers, lookup_assign, Lit.toBson, toBsonMembers]
  · intro v hv; rw [htg1 v hv]; rfl
  · intro hb w hw
    have := htg2 hb
    rw [hw] at this
    cases this; rfl
  · intro v hv; rw [hti1 v hv]; rfl
  · intro hb w hw
    have := hti2 hb
    rw [hw] at this
    cases this; rfl

/-- Witness of C1: a `PUT` on the sample event with body
`{name: "", tagged: false}`. -/
theorem put_merged_document_witness :
    newObjectId sampleId = .ok 1 ∧ findOne sampleDb.events 1 = some sampleEvent ∧
    ∃ (set : Doc) (tagged title : Json),
      (putEvent (healthyEnv 2) sampleDb sampleId
        [("name", .str ""), ("tagged", .bool false)]).calls =
          [.findOne 1, .updateOne 1 set] ∧
      set._id = sampleEvent._id ∧
      (∀ k ∈ mutableFields,
        (∀ v, lookup ([("name", .str ""), ("tagged", .bool false)] : Body) k = some v →
          lookup set.fields k = some v) ∧
        (lookup ([("name", .str ""), ("tagged", .bool false)] : Body) k = none →
          ∀ w, lookup sampleEvent.fields k = some w → lookup set.fields k = some w)) ∧
      lookup set.fields "nudge" = some (.obj [("tagged", tagged), ("title", title)]) ∧
      (∀ v, lookup ([("name", .str ""), ("tagged", .bool false)] : Body) "tagged" = some v →
        tagged = v) ∧
      (lookup ([("name", .str ""), ("tagged", .bool false)] : Body) "tagged" = none →
        ∀ w, prop (some (.obj [("tagged", .bool true), ("title", .str "Join")])) "tagged" =
          .ok (some w) → tagged = w) ∧
      (∀ v, lookup ([("name", .str ""), ("tagged", .bool false)] : Body) "nudgeTitle" = some v →
        title = v) ∧
      (lookup ([("name", .str ""), ("tagged", .bool false)] : Body) "nudgeTitle" = none →
        ∀ w, prop (some (.obj [("tagged", .bool true), ("title", .str "Join")])) "title" =
          .ok (some w) → title = w) :=
  ⟨by decide, by decide,
    put_merged_document (healthyEnv 2) sampleDb sampleId
      [("name", .str ""), ("tagged", .bool false)] 1 sampleEvent
      (.obj [("tagged", .bool true), ("title", .str "Join")])
      rfl (by decide) rfl (by decide) (by decide) (by decide)⟩

/-- C2, as amended: `POST /events` issues one insertion of the object literal
`event`, whose ten body fields are the body's own (`undefined` when absent), so
that the document has `type` "event", `attendees` the empty sequence, each
field the body supplies copied unchanged, and `nudge = {tagged: tagged ||
false, title: nudgeTitle || ""}`: the body's `tagged` / `nudgeTitle` is stored
when it is truthy, and `false` / `""` is stored for every falsy or absent
value.  When the insertion succeeds the document is appended under the
generated identifier and the response is 201 with that identifier. -/
theorem post_inserted_document (env : Env) (db : Db) (body : Body)
    (hc : env.connects = true) :
    ∃ (fields : List (String × Json)) (tagged title : Json),
      (postEvent env db body).calls = [.insertOne fields] ∧
      fields = toBsonMembers (eventLiteral body) ∧
      (∀ k ∈ createFields, lookup (eventLiteral body) k = some (.val (lookup body k))) ∧
      lookup fields "type" = some (.str "event") ∧
      lookup fields "attendees" = some (.arr []) ∧
      (∀ k ∈ createFields, ∀ v, lookup body k = some v → lookup fields k = some v) ∧
      lookup fields "nudge" = some (.obj [("tagged", tagged), ("title", title)]) ∧
      (truthy (lookup body "tagged") = true → lookup body "tagged" = some tagged) ∧
      (truthy (lookup body "tagged") = false → tagged = .bool false) ∧
      (truthy (lookup body "nudgeTitle") = true → lookup body "nudgeTitle" = some title) ∧
      (truthy (lookup body "nudgeTitle") = false → title = .str "") ∧
      (env.fault 0 = false → findOne db.events env.newId = none →
        (postEvent env db body).outcome = .sent 201 (.id env.newId) ∧
        (postEvent env db body).db.events = db.events ++ [⟨env.newId, fields⟩]) := by
  refine ⟨toBsonMembers (eventLiteral body), jsOr (lookup body "tagged") (.bool false),
    jsOr (lookup body "nudgeTitle") (.str ""), ?_, rfl, ?_, ?_, ?_, ?_, ?_, ?_, ?_, ?_, ?_, ?_⟩
  · simp only [postEvent, connectToDatabase_connected env db hc]
    by_cases h0 : env.fault 0 = true
    · simp [h0]
    · simp only [h0]
      cases insertOne db.events env.newId (toBsonMembers (eventLiteral body)) with
      | error e => simp
      | ok r => simp
  · intro k hk
    simp only [createFields, List.mem_cons, List.mem_singleton, List.not_mem_nil, or_false] at hk
    rcases hk with h | h | h | h | h | h | h | h | h | h <;> subst h <;>
      simp [eventLiteral, lookup]
  · simp [eventLiteral, toBsonMembers, lookup, Lit.toBson]
  · simp [eventLiteral, toBsonMembers, lookup, Lit.toBson]
  · intro k hk v hv
    simp only [createFields, List.mem_cons, List.mem_singleton, List.not_mem_nil, or_false] at hk
    rcases hk with h | h | h | h | h | h | h | h | h | h <;> subst h <;>
      simp [eventLiteral, toBsonMembers, lookup, Lit.toBson, hv]
  · simp [eventLiteral, toBsonMembers, lookup, Lit.toBson]
  · intro h
    cases hb : lookup body "tagged" with
    | none => rw [hb] at h; simp [truthy] at h
    | some v => rw [hb] at h; simp [jsOr, h]
  · intro h
    cases hb : lookup body "tagged" with
    | none => simp [jsOr]
    | some v => rw [hb] at h; simp [jsOr, h]
  · intro h
    cases hb : lookup body "nudgeTitle" with
    | none => rw [hb] at h; simp [truthy] at h
    | some v => rw [hb] at h; simp [jsOr, h]
  · intro h
    cases hb : lookup body "nudgeTitle" with
    | none => simp [jsOr]
    | some v => rw [hb] at h; simp [jsOr, h]
  · intro h0 hfresh
    simp [postEvent, connectToDatabase, hc, h0, insertOne, hfresh]

/-- Witness of C2 (amended): a `POST` with body `{name: "a", tagged: 0}` on the
sample database. -/
theorem post_inserted_document_witness :
    ∃ (fields : List (String × Json)) (tagged title : Json),
      (postEvent (healthyEnv 2) sampleDb [("name", .str "a"), ("tagged", .num 0)]).calls =
        [.insertOne fields] ∧
      fields = toBsonMembers (eventLiteral [("name", .str "a"), ("tagged", .num 0)]) ∧
      (∀ k ∈ createFields, lookup (eventLiteral [("name", .str "a"), ("tagged", .num 0)]) k =
        some (.val (lookup ([("name", .str "a"), ("tagged", .num 0)] : Body) k))) ∧
      lookup fields "type" = some (.str "event") ∧
      lookup fields "attendees" = some (.arr []) ∧
      (∀ k ∈ createFields, ∀ v,
        lookup ([("name", .str "a"), ("tagged", .num 0)] : Body) k = some v →
          lookup fields k = some v) ∧
      lookup fields "nudge" = some (.obj [("tagged", tagged), ("title", title)]) ∧
      (truthy (lookup ([("name", .str "a"), ("tagged", .num 0)] : Body) "tagged") = true →
        lookup ([("name", .str "a"), ("tagged", .num 0)] : Body) "tagged" = some tagged) ∧
      (truthy (lookup ([("name", .str "a"), ("tagged", .num 0)] : Body) "tagged") = false →
        tagged = .bool false) ∧
      (truthy (lookup ([("name", .str "a"), ("tagged", .num 0)] : Body) "nudgeTitle") = true →
        lookup ([("name", .str "a"), ("tagged", .num 0)] : Body) "nudgeTitle" = some title) ∧
      (truthy (lookup ([("name", .str "a"), ("tagged", .num 0)] : Body) "nudgeTitle") = false →
        title = .str "") ∧
      ((healthyEnv 2).fault 0 = false → findOne sampleDb.events (healthyEnv 2).newId = none →
        (postEvent (healthyEnv 2) sampleDb [("name", .str "a"), ("tagged", .num 0)]).outcome =
          .sent 201 (.id (healthyEnv 2).newId) ∧
        (postEvent (healthyEnv 2) sampleDb [("name", .str "a"), ("tagged", .num 0)]).db.events =
          sampleDb.events ++ [⟨(healthyEnv 2).newId, fields⟩]) :=
  post_inserted_document (healthyEnv 2) sampleDb [("name", .str "a"), ("tagged", .num 0)] rfl

/-- Counterexample to C2 as stated: for the body `{tagged: 0, nudgeTitle: false}`
the stored `nudge` is `{tagged: false, title: ""}`, whereas
`{tagged: tagged ?? false, title: nudgeTitle ?? ""}` is `{tagged: 0, title: false}`. -/
theorem post_nudge_nullish_counterexample :
    (postEvent (healthyEnv 2) ⟨[], []⟩
        [("tagged", .num 0), ("nudgeTitle", .bool false)]).db.events.map
      (fun d => lookup d.fields "nudge") =
        [some (.obj [("tagged", .bool false), ("title", .str "")])] ∧
    specNudge [("tagged", .num 0), ("nudgeTitle", .bool false)] =
      .obj [("tagged", .num 0), ("title", .bool false)] ∧
    (postEvent (healthyEnv 2) ⟨[], []⟩
        [("tagged", .num 0), ("nudgeTitle", .bool false)]).db.events.map
      (fun d => lookup d.fields "nudge") ≠
        [some (specNudge [("tagged", .num 0), ("nudgeTitle", .bool false)])] := by
  decide

/-! ## Lemmas on numbers -/

theorem excessBits_small (n : Nat) (h : n < 2 ^ 53) : excessBits n n = 0 := by
  cases n with
  | zero => rfl
  | succ k => simp only [excessBits, if_pos h]

theorem roundNat_small (n : Nat) (h : n < 2 ^ 53) : roundNat n = some n := by
  simp [roundNat, excessBits_small n h, Nat.mod_one]

theorem ofInt_small (n : Int) (h : n.natAbs < 2 ^ 53) : Num.ofInt n = .fin n := by
  simp only [Num.ofInt, roundNat_small n.natAbs h]
  by_cases hn : n < 0
  · simp only [if_pos hn]
    congr 1
    omega
  · simp only [if_neg hn]
    congr 1
    omega

theorem skipOf_exact (p l : Int) (h1 : (p - 1).natAbs < 2 ^ 53)
    (h2 : ((p - 1) * l).natAbs < 2 ^ 53) : skipOf (.fin p) (.fin l) = .fin ((p - 1) * l) := by
  simp only [skipOf, Num.sub, ofInt_small (p - 1) h1, Num.mul, ofInt_small ((p - 1) * l) h2]

/-- C4, as amended: in `GET /events_pagination` the effective limit is 10 when
`limit` is absent, has no leading integer, or parses to 0, and is the parsed
number otherwise; the effective page is 1 in the same three cases and the
parsed number otherwise.  The parsed number is the parameter's integer value
when that is below 2^53 in magnitude (beyond, it is the nearest double or an
infinity).  No lower bound is enforced on non-zero values: a negative limit or
page is used as given, and the store is asked for `skip = (page - 1) * limit`,
computed in double arithmetic (exact while the factors and the product stay
below 2^53 in magnitude), and that limit. -/
theorem pagination_effective_parameters (env : Env) (db : Db) (type limit page : Option String)
    (hc : env.connects = true) :
    parseIntParam none = .nan ∧
    (∀ q : Option String, mathInt (q.getD "undefined") = none → parseIntParam q = .nan) ∧
    (∀ (q : Option String) (n : Int), mathInt (q.getD "undefined") = some n →
      n.natAbs < 2 ^ 53 → parseIntParam q = .fin n) ∧
    (parseIntParam limit = .nan → effectiveLimit limit = .fin 10) ∧
    (parseIntParam limit = .fin 0 → effectiveLimit limit = .fin 10) ∧
    (∀ n : Int, n ≠ 0 → parseIntParam limit = .fin n → effectiveLimit limit = .fin n) ∧
    (∀ s, parseIntParam limit = .inf s → effectiveLimit limit = .inf s) ∧
    (parseIntParam page = .nan → effectivePage page = .fin 1) ∧
    (parseIntParam page = .fin 0 → effectivePage page = .fin 1) ∧
    (∀ n : Int, n ≠ 0 → parseIntParam page = .fin n → effectivePage page = .fin n) ∧
    (∀ s, parseIntParam page = .inf s → effectivePage page = .inf s) ∧
    (getEventsPagination env db type limit page).calls =
      [.findPage (sortFor type)
        (Num.mul (Num.sub (effectivePage page) (.fin 1)) (effectiveLimit limit))
        (effectiveLimit limit)] ∧
    (∀ p l : Int, effectivePage page = .fin p → effectiveLimit limit = .fin l →
      (p - 1).natAbs < 2 ^ 53 → ((p - 1) * l).natAbs < 2 ^ 53 →
      Num.mul (Num.sub (effectivePage page) (.fin 1)) (effectiveLimit limit) =
        .fin ((p - 1) * l)) := by
  refine ⟨by decide, ?_, ?_, ?_, ?_, ?_, ?_, ?_, ?_, ?_, ?_, ?_, ?_⟩
  · intro q h; simp [parseIntParam, parseInt, h]
  · intro q n h hn; simp [parseIntParam, parseInt, h, ofInt_small n hn]
  · intro h; simp [effectiveLimit, h, numOr, Num.falsy]
  · intro h; simp [effectiveLimit, h, numOr, Num.falsy]
  · intro n hn h; simp [effectiveLimit, h, numOr, Num.falsy, hn]
  · intro s h; simp [effectiveLimit, h, numOr, Num.falsy]
  · intro h; simp [effectivePage, h, numOr, Num.falsy]
  · intro h; simp [effectivePage, h, numOr, Num.falsy]
  · intro n hn h; simp [effectivePage, h, numOr, Num.falsy, hn]
  · intro s h; simp [effectivePage, h, numOr, Num.falsy]
  · simp only [getEventsPagination, connectToDatabase_connected env db hc, skipOf]
    by_cases h0 : env.fault 0 = true
    · simp [h0]
    · simp only [h0]
      cases findPage env.le env.irregularPage db.events (sortFor type)
          (Num.mul (Num.sub (effectivePage page) (.fin 1)) (effectiveLimit limit))
          (effectiveLimit limit) with
      | error e => simp
      | ok r => simp
  · intro p l hp hl h1 h2
    rw [hp, hl]
    exact skipOf_exact p l h1 h2

/-- Witness of C4 (amended): `limit=-5`, `page=-2` are used as given, and the
store is asked for skip 15 and limit -5. -/
theorem pagination_effective_parameters_witness :
    parseIntParam (some "-5") = .fin (-5) ∧ effectiveLimit (some "-5") = .fin (-5) ∧
    effectivePage (some "-2") = .fin (-2) ∧
    (getEventsPagination (healthyEnv 2) sampleDb none (some "-5") (some "-2")).calls =
      [.findPage (sortFor none)
        (Num.mul (Num.sub (effectivePage (some "-2")) (.fin 1)) (effectiveLimit (some "-5")))
        (effectiveLimit (some "-5"))] ∧
    Num.mul (Num.sub (effectivePage (some "-2")) (.fin 1)) (effectiveLimit (some "-5")) =
      .fin 15 :=
  ⟨by decide, by decide, by decide,
    (pagination_effective_parameters (healthyEnv 2) sampleDb none (some "-5") (some "-2")
      rfl).2.2.2.2.2.2.2.2.2.2.2.1,
    by decide⟩

/-- Counterexample to C4 as stated: `limit=0` and `page=0` are numeric, yet the
effective limit is 10 and the effective page is 1, and the store is asked for
skip 0 and limit 10 rather than limit 0. -/
theorem pagination_zero_counterexample :
    parseIntParam (some "0") = .fin 0 ∧
    effectiveLimit (some "0") = .fin 10 ∧
    effectivePage (some "0") = .fin 1 ∧
    (getEventsPagination (healthyEnv 2) sampleDb none (some "0") (some "0")).calls =
      [.findPage .natural (.fin 0) (.fin 10)] := by
  decide

theorem sortDocs_perm (le : Json → Json → Bool) (spec : SortSpec) (docs : List Doc) :
    (sortDocs le spec docs).Perm docs := by
  cases spec with
  | natural => exact List.Perm.refl _
  | scheduleDesc => exact List.perm_insertionSort _ docs

theorem sortDocs_sorted (le : Json → Json → Bool) (docs : List Doc)
    (htotal : ∀ a b, le a b = true ∨ le b a = true)
    (htrans : ∀ a b c, le a b = true → le b c = true → le a c = true) :
    (sortDocs le .scheduleDesc docs).Sorted
      (fun a b => le (scheduleOf b) (scheduleOf a) = true) := by
  haveI : IsTotal Doc (fun a b => le (scheduleOf b) (scheduleOf a) = true) :=
    ⟨fun a b => (htotal (scheduleOf b) (scheduleOf a))⟩
  haveI : IsTrans Doc (fun a b => le (scheduleOf b) (scheduleOf a) = true) :=
    ⟨fun a b c hab hbc => htrans _ _ _ hbc hab⟩
  exact List.sorted_insertionSort _ docs

/-- C5, as amended: in `GET /events_pagination` with a reachable store, for
`limit` and `page` parsing to positive integers `l` and `p` with `l` and
`(p-1)*l` below 2^53 (where the handler's double arithmetic is exact), the
response is 200 with the elements at offsets `(p-1)*l` to `(p-1)*l + l - 1`
(those that exist) of the store's ordered sequence; that sequence is the stored
order unless `type` is "latest", in which case it is a rearrangement of the
stored events that is descending in `schedule` under the store's ordering of
values (a total preorder). -/
theorem pagination_window (env : Env) (db : Db) (type limit page : Option String) (l p : Nat)
    (hc : env.connects = true) (hf : env.fault 0 = false)
    (hl : parseIntParam limit = .fin (l : Int)) (hp : parseIntParam page = .fin (p : Int))
    (hl0 : 0 < l) (hp0 : 0 < p) (hlb : l < 2 ^ 53) (hsb : (p - 1) * l < 2 ^ 53) :
    (getEventsPagination env db type limit page).outcome =
      .sent 200 (.docs (((sortDocs env.le (sortFor type) db.events).drop ((p - 1) * l)).take l)) ∧
    (∀ j, j < l →
      (((sortDocs env.le (sortFor type) db.events).drop ((p - 1) * l)).take l)[j]? =
        (sortDocs env.le (sortFor type) db.events)[(p - 1) * l + j]?) ∧
    (((sortDocs env.le (sortFor type) db.events).drop ((p - 1) * l)).take l).length ≤ l ∧
    (type ≠ some "latest" → sortDocs env.le (sortFor type) db.events = db.events) ∧
    (type = some "latest" →
      (sortDocs env.le (sortFor type) db.events).Perm db.events ∧
      ((∀ a b, env.le a b = true ∨ env.le b a = true) →
        (∀ a b c, env.le a b = true → env.le b c = true → env.le a c = true) →
        (sortDocs env.le (sortFor type) db.events).Sorted
          (fun a b => env.le (scheduleOf b) (scheduleOf a) = true))) := by
  have hl' : ¬ (l : Int) = 0 := by omega
  have hp' : ¬ (p : Int) = 0 := by omega
  have hlim : effectiveLimit limit = .fin (l : Int) := by
    simp [effectiveLimit, hl, numOr, Num.falsy, hl']
  have hpage : effectivePage page = .fin (p : Int) := by
    simp [effectivePage, hp, numOr, Num.falsy, hp']
  have hcast : ((p : Int) - 1) * (l : Int) = (((p - 1) * l : Nat) : Int) := by
    push_cast [Nat.cast_sub (Nat.succ_le_of_lt hp0)]
    ring
  have hpm : p - 1 ≤ (p - 1) * l := Nat.le_mul_of_pos_right _ hl0
  have hskip : skipOf (.fin (p : Int)) (.fin (l : Int)) = .fin (((p - 1) * l : Nat) : Int) := by
    rw [← hcast]
    apply skipOf_exact
    · have : ((p : Int) - 1).natAbs = p - 1 := by omega
      rw [this]; omega
    · rw [hcast, Int.natAbs_ofNat]; exact hsb
  refine ⟨?_, ?_, ?_, ?_, ?_⟩
  · have hneg : ¬ (((p - 1) * l : Nat) : Int) < 0 := by omega
    have hnat : (((p - 1) * l : Nat) : Int).toNat = (p - 1) * l := Int.toNat_natCast _
    have hrange : (p - 1) * l < 9223372036854775808 ∧ l < 9223372036854775808 :=
      ⟨lt_of_lt_of_le hsb (by norm_num), lt_of_lt_of_le hlb (by norm_num)⟩
    simp only [getEventsPagination, connectToDatabase_connected env db hc, hf, hlim, hpage,
      hskip, findPage, if_neg hneg, hnat, if_neg hl', Int.natAbs_ofNat]
    simp [hrange]
  · intro j hj
    simp [List.getElem?_take, hj]
  · simp [List.length_take]
  · intro ht
    simp [sortFor, ht, sortDocs]
  · intro ht
    refine ⟨sortDocs_perm _ _ _, fun htotal htrans => ?_⟩
    subst ht
    exact sortDocs_sorted env.le db.events htotal htrans

/-- Witness of C5 (amended): `type=latest`, `limit=5`, `page=2` on twelve
events returns the elements at offsets 5 to 9 of the descending order, those
with schedules 6 down to 2. -/
theorem pagination_window_witness :
    parseIntParam (some "5") = .fin ((5 : Nat) : Int) ∧
    parseIntParam (some "2") = .fin ((2 : Nat) : Int) ∧
    (getEventsPagination orderedEnv pageDb (some "latest") (some "5") (some "2")).outcome =
      .sent 200 (.docs (((sortDocs orderedEnv.le (sortFor (some "latest")) pageDb.events).drop
        ((2 - 1) * 5)).take 5)) ∧
    ((sortDocs orderedEnv.le (sortFor (some "latest")) pageDb.events).drop ((2 - 1) * 5)).take 5 =
      [⟨6, [("schedule", .num 6)]⟩, ⟨5, [("schedule", .num 5)]⟩, ⟨4, [("schedule", .num 4)]⟩,
        ⟨3, [("schedule", .num 3)]⟩, ⟨2, [("schedule", .num 2)]⟩] :=
  ⟨by decide, by decide,
    (pagination_window orderedEnv pageDb (some "latest") (some "5") (some "2") 5 2 rfl rfl
      (by decide) (by decide) (by decide) (by decide) (by decide) (by decide)).1,
    by decide⟩

/-- Counterexample to C5 as stated: on a collection of 2^53 + 1 events,
`limit=9007199254740993` (2^53 + 1) and `page=1` ask for the offsets 0 to 2^53,
which all exist; `parseInt` yields the double 9007199254740992, so the response
holds 2^53 events and lacks the one at offset 2^53. -/
theorem pagination_rounding_counterexample :
    mathInt "9007199254740993" = some 9007199254740993 ∧
    effectiveLimit (some "9007199254740993") = .fin 9007199254740992 ∧
    (getEventsPagination (healthyEnv 2) ⟨hugeEvents, []⟩ none (some "9007199254740993")
      (some "1")).outcome = .sent 200 (.docs (hugeEvents.take 9007199254740992)) ∧
    (hugeEvents.take 9007199254740992).length = 9007199254740992 ∧
    ((hugeEvents.drop ((1 - 1) * 9007199254740993)).take 9007199254740993).length =
      9007199254740993 ∧
    hugeEvents.take 9007199254740992 ≠
      (hugeEvents.drop ((1 - 1) * 9007199254740993)).take 9007199254740993 := by
  have hlim : effectiveLimit (some "9007199254740993") = .fin 9007199254740992 := by decide
  have hpage : effectivePage (some "1") = .fin 1 := by decide
  have hskip : skipOf (.fin 1) (.fin 9007199254740992) = .fin 0 := by decide
  have hrange : (0 : Int).natAbs < 2 ^ 63 ∧ (9007199254740992 : Int).natAbs < 2 ^ 63 := by
    decide
  have hlen : hugeEvents.length = 9007199254740993 := by
    rw [hugeEvents, List.length_replicate]
    decide
  have hresp : (hugeEvents.take 9007199254740992).length = 9007199254740992 := by
    rw [List.length_take, hlen]
    decide
  have hclaim : ((hugeEvents.drop ((1 - 1) * 9007199254740993)).take
      9007199254740993).length = 9007199254740993 := by
    rw [List.length_take, List.length_drop, hlen]
    decide
  refine ⟨by decide, hlim, ?_, hresp, hclaim, ?_⟩
  · have hc : (healthyEnv 2).connects = true := rfl
    have hf : (healthyEnv 2).fault 0 = false := rfl
    have hz : ¬ (0 : Int) < 0 := by decide
    have hl : ¬ (9007199254740992 : Int) = 0 := by decide
    have hna : (9007199254740992 : Int).natAbs = 9007199254740992 := by decide
    simp only [getEventsPagination, connectToDatabase_connected _ _ hc, hf, hlim, hpage, hskip,
      findPage, if_pos hrange, if_neg hz, if_neg hl, hna, sortFor, sortDocs, Int.toNat_zero,
      List.drop_zero]
    simp
  · intro e
    have hcongr := congrArg List.length e
    rw [hresp, hclaim] at hcongr
    exact absurd hcongr (by decide)

theorem findOne_eq_none (docs : List Doc) (i : ObjId) (h : ∀ d ∈ docs, d._id ≠ i) :
    findOne docs i = none := by
  simp only [findOne, List.find?_eq_none]
  intro d hd
  simpa using h d hd

theorem newObjectId_ne_empty (id : String) (oid : ObjId) (h : newObjectId id = .ok oid) :
    id ≠ "" := by
  intro e
  subst e
  have hempty : newObjectId "" = .error .invalidId := by decide
  rw [hempty] at h
  cases h

/-- C6: for an identifier that parses and matches no stored event, `GET
/events?id=`, `PUT /events/:id` (any body) and `DELETE /events/:id` each answer
404 `{error: "Event not found"}` when the store is reachable and the lookup
does not fail; in every environment none of them answers 200, the database is
left unchanged, and `PUT` issues no update. -/
theorem not_found_symmetry (env : Env) (db : Db) (id : String) (oid : ObjId) (body : Body)
    (hid : newObjectId id = .ok oid) (hmiss : ∀ d ∈ db.events, d._id ≠ oid) :
    (env.connects = true → env.fault 0 = false →
      (getEvents env db (some id)).outcome = .sent 404 (.error "Event not found") ∧
      (putEvent env db id body).outcome = .sent 404 (.error "Event not found") ∧
      (deleteEvent env db id).outcome = .sent 404 (.error "Event not found")) ∧
    (∀ payload, (getEvents env db (some id)).outcome ≠ .sent 200 payload ∧
      (putEvent env db id body).outcome ≠ .sent 200 payload ∧
      (deleteEvent env db id).outcome ≠ .sent 200 payload) ∧
    (getEvents env db (some id)).db = db ∧
    (putEvent env db id body).db = db ∧
    (deleteEvent env db id).db = db ∧
    (∀ i set, Call.updateOne i set ∉ (putEvent env db id body).calls) := by
  have hfind := findOne_eq_none db.events oid hmiss
  have hne := newObjectId_ne_empty id oid hid
  have hdb : ({ db with events := db.events } : Db) = db := by cases db; rfl
  refine ⟨?_, ?_, ?_, ?_, ?_, ?_⟩
  · intro hc hf
    refine ⟨?_, ?_, ?_⟩
    · simp [getEvents, connectToDatabase, hc, hne, hid, hf, hfind, notFound]
    · simp [putEvent, connectToDatabase, hc, hid, hf, hfind, notFound]
    · simp [deleteEvent, connectToDatabase, hc, hid, hf, deleteOne, hfind, notFound]
  · intro payload
    refine ⟨?_, ?_, ?_⟩
    · by_cases hc : env.connects = true <;> by_cases hf : env.fault 0 = true <;>
        simp [getEvents, connectToDatabase, hc, hne, hid, hf, hfind, notFound, internalError]
    · by_cases hc : env.connects = true <;> by_cases hf : env.fault 0 = true <;>
        simp [putEvent, connectToDatabase, hc, hid, hf, hfind, notFound, internalError]
    · by_cases hc : env.connects = true <;> by_cases hf : env.fault 0 = true <;>
        simp [deleteEvent, connectToDatabase, hc, hid, hf, deleteOne, hfind, notFound,
          internalError]
  · by_cases hc : env.connects = true <;> by_cases hf : env.fault 0 = true <;>
      simp [getEvents, connectToDatabase, hc, hne, hid, hf, hfind]
  · by_cases hc : env.connects = true <;> by_cases hf : env.fault 0 = true <;>
      simp [putEvent, connectToDatabase, hc, hid, hf, hfind]
  · by_cases hc : env.connects = true <;> by_cases hf : env.fault 0 = true <;>
      simp [deleteEvent, connectToDatabase, hc, hid, hf, deleteOne, hfind, hdb]
  · intro i set
    by_cases hc : env.connects = true <;> by_cases hf : env.fault 0 = true <;>
      simp [putEvent, connectToDatabase, hc, hid, hf, hfind]

/-- Witness of C6: the identifier `...02` on the sample database, which holds
only the event `...01`. -/
theorem not_found_symmetry_witness :
    newObjectId "000000000000000000000002" = .ok 2 ∧
    (getEvents (healthyEnv 9) sampleDb (some "000000000000000000000002")).outcome =
      .sent 404 (.error "Event not found") ∧
    (putEvent (healthyEnv 9) sampleDb "000000000000000000000002" [("name", .str "x")]).outcome =
      .sent 404 (.error "Event not found") ∧
    (deleteEvent (healthyEnv 9) sampleDb "000000000000000000000002").outcome =
      .sent 404 (.error "Event not found") :=
  ⟨by decide,
    (not_found_symmetry (healthyEnv 9) sampleDb "000000000000000000000002" 2
      [("name", .str "x")] (by decide) (by decide)).1 rfl rfl⟩

theorem findOne_append_new (docs : List Doc) (i : ObjId) (fields : List (String × Json))
    (h : ∀ d ∈ docs, d._id ≠ i) : findOne (docs ++ [⟨i, fields⟩]) i = some ⟨i, fields⟩ := by
  have hnone := findOne_eq_none docs i h
  simp only [findOne] at hnone ⊢
  simp [List.find?_append, hnone]

/-- C7: when `POST /events` succeeds (reachable store, no failing call, a
generated identifier not yet in use) it answers 201 with that identifier, and a
following `GET /events?id=` with that identifier answers 200 with a document
holding every one of the ten body fields the body supplied, `type` "event",
`attendees` `[]`, and `nudge` `{tagged: false, title: ""}` when the body omits
`tagged` and `nudgeTitle`. -/
theorem post_then_get_round_trip (env env' : Env) (db : Db) (body : Body) (id : String)
    (hc : env.connects = true) (hf : env.fault 0 = false)
    (hfresh : ∀ d ∈ db.events, d._id ≠ env.newId)
    (hc' : env'.connects = true) (hf' : env'.fault 0 = false)
    (hid : newObjectId id = .ok env.newId) :
    (postEvent env db body).outcome = .sent 201 (.id env.newId) ∧
    ∃ d : Doc,
      (getEvents env' (postEvent env db body).db (some id)).outcome = .sent 200 (.doc d) ∧
      d._id = env.newId ∧
      (∀ k ∈ createFields, ∀ v, lookup body k = some v → lookup d.fields k = some v) ∧
      lookup d.fields "type" = some (.str "event") ∧
      lookup d.fields "attendees" = some (.arr []) ∧
      (lookup body "tagged" = none → lookup body "nudgeTitle" = none →
        lookup d.fields "nudge" = some (.obj [("tagged", .bool false), ("title", .str "")])) := by
  have hnone := findOne_eq_none db.events env.newId hfresh
  have hne := newObjectId_ne_empty id env.newId hid
  have hpost : postEvent env db body =
      ⟨.sent 201 (.id env.newId),
        { db with events := db.events ++ [⟨env.newId, toBsonMembers (eventLiteral body)⟩] },
        [.insertOne (toBsonMembers (eventLiteral body))]⟩ := by
    simp [postEvent, connectToDatabase, hc, hf, insertOne, hnone]
  refine ⟨by rw [hpost], ⟨env.newId, toBsonMembers (eventLiteral body)⟩, ?_, rfl, ?_, ?_, ?_, ?_⟩
  · rw [hpost]
    simp [getEvents, connectToDatabase, hc', hf', hne, hid,
      findOne_append_new db.events env.newId _ hfresh]
  · intro k hk v hv
    simp only [createFields, List.mem_cons, List.mem_singleton, List.not_mem_nil, or_false] at hk
    rcases hk with h | h | h | h | h | h | h | h | h | h <;> subst h <;>
      simp [eventLiteral, toBsonMembers, lookup, Lit.toBson, hv]
  · simp [eventLiteral, toBsonMembers, lookup, Lit.toBson]
  · simp [eventLiteral, toBsonMembers, lookup, Lit.toBson]
  · intro ht hti
    simp [eventLiteral, toBsonMembers, lookup, Lit.toBson, ht, hti, jsOr]

/-- Witness of C7: posting a full body to the sample database and fetching the
identifier `...02`. -/
theorem post_then_get_round_trip_witness :
    newObjectId "000000000000000000000002" = .ok (healthyEnv 2).newId ∧
    (postEvent (healthyEnv 2) sampleDb
      [("uid", .str "u1"), ("name", .str "Launch"), ("tagline", .str "t"),
        ("schedule", .str "2024-06-01"), ("description", .str "d"),
        ("files", .arr [.str "a.png"]), ("moderator", .str "m"), ("category", .str "c"),
        ("sub_category", .str "s"), ("rigor_rank", .num 3)]).outcome =
      .sent 201 (.id (healthyEnv 2).newId) ∧
    ∃ d : Doc,
      (getEvents (healthyEnv 3) (postEvent (healthyEnv 2) sampleDb
        [("uid", .str "u1"), ("name", .str "Launch"), ("tagline", .str "t"),
          ("schedule", .str "2024-06-01"), ("description", .str "d"),
          ("files", .arr [.str "a.png"]), ("moderator", .str "m"), ("category", .str "c"),
          ("sub_category", .str "s"), ("rigor_rank", .num 3)]).db
        (some "000000000000000000000002")).outcome = .sent 200 (.doc d) ∧
      d._id = (healthyEnv 2).newId ∧
      (∀ k ∈ createFields, ∀ v,
        lookup ([("uid", .str "u1"), ("name", .str "Launch"), ("tagline", .str "t"),
          ("schedule", .str "2024-06-01"), ("description", .str "d"),
          ("files", .arr [.str "a.png"]), ("moderator", .str "m"), ("category", .str "c"),
          ("sub_category", .str "s"), ("rigor_rank", .num 3)] : Body) k = some v →
        lookup d.fields k = some v) ∧
      lookup d.fields "type" = some (.str "event") ∧
      lookup d.fields "attendees" = some (.arr []) ∧
      (lookup ([("uid", .str "u1"), ("name", .str "Launch"), ("tagline", .str "t"),
          ("schedule", .str "2024-06-01"), ("description", .str "d"),
          ("files", .arr [.str "a.png"]), ("moderator", .str "m"), ("category", .str "c"),
          ("sub_category", .str "s"), ("rigor_rank", .num 3)] : Body) "tagged" = none →
        lookup ([("uid", .str "u1"), ("name", .str "Launch"), ("tagline", .str "t"),
          ("schedule", .str "2024-06-01"), ("description", .str "d"),
          ("files", .arr [.str "a.png"]), ("moderator", .str "m"), ("category", .str "c"),
          ("sub_category", .str "s"), ("rigor_rank", .num 3)] : Body) "nudgeTitle" = none →
        lookup d.fields "nudge" =
          some (.obj [("tagged", .bool false), ("title", .str "")])) :=
  ⟨by decide,
    post_then_get_round_trip (healthyEnv 2) (healthyEnv 3) sampleDb
      [("uid", .str "u1"), ("name", .str "Launch"), ("tagline", .str "t"),
        ("schedule", .str "2024-06-01"), ("description", .str "d"),
        ("files", .arr [.str "a.png"]), ("moderator", .str "m"), ("category", .str "c"),
        ("sub_category", .str "s"), ("rigor_rank", .num 3)]
      "000000000000000000000002" rfl rfl (by decide) rfl rfl (by decide)⟩

/-! ## Lemmas on keys, `$set` and the store -/

theorem lookup_eq_none_of_not_mem {α : Type} (o : List (String × α)) (k : String)
    (h : k ∉ o.map Prod.fst) : lookup o k = none := by
  induction o with
  | nil => rfl
  | cons m t ih =>
    obtain ⟨a, b⟩ := m
    simp only [List.map_cons, List.mem_cons, not_or] at h
    have ha : ¬ a = k := fun e => h.1 e.symm
    simp [lookup, ha, ih h.2]

theorem lookup_of_mem {α : Type} (o : List (String × α)) (k : String) (v : α)
    (hnd : (o.map Prod.fst).Nodup) (h : (k, v) ∈ o) : lookup o k = some v := by
  induction o with
  | nil => cases h
  | cons m t ih =>
    obtain ⟨a, b⟩ := m
    simp only [List.map_cons, List.nodup_cons] at hnd
    rcases List.mem_cons.1 h with e | e
    · cases e
      simp [lookup]
    · have hk : k ∈ t.map Prod.fst := List.mem_map.2 ⟨(k, v), e, rfl⟩
      have ha : ¬ a = k := fun e' => hnd.1 (e' ▸ hk)
      simp [lookup, ha, ih hnd.2 e]

theorem keys_assign {α : Type} (o : List (String × α)) (k : String) (v : α) :
    (assign o k v).map Prod.fst =
      if k ∈ o.map Prod.fst then o.map Prod.fst else o.map Prod.fst ++ [k] := by
  induction o with
  | nil => simp [assign]
  | cons m t ih =>
    obtain ⟨a, b⟩ := m
    by_cases h : a = k
    · subst h
      simp [assign]
    · have h' : ¬ k = a := fun e => h e.symm
      simp only [assign, if_neg h, List.map_cons, ih, List.mem_cons, h', false_or]
      by_cases hm : k ∈ t.map Prod.fst <;> simp [hm]

theorem nodup_keys_assign {α : Type} (o : List (String × α)) (k : String) (v : α)
    (h : (o.map Prod.fst).Nodup) : ((assign o k v).map Prod.fst).Nodup := by
  rw [keys_assign]
  by_cases hm : k ∈ o.map Prod.fst
  · simpa [hm] using h
  · simp only [if_neg hm]
    exact List.Nodup.append h (List.nodup_singleton k) (by simpa using hm)

theorem keys_toBsonMembers (ms : List (String × Lit)) :
    (toBsonMembers ms).map Prod.fst = ms.map Prod.fst := by
  induction ms with
  | nil => rfl
  | cons m t ih =>
    obtain ⟨a, b⟩ := m
    simp [toBsonMembers, ih]

theorem keys_dedupKeys_subset {α : Type} (o : List (String × α)) (k : String)
    (h : k ∈ (dedupKeys o).map Prod.fst) : k ∈ o.map Prod.fst := by
  induction o with
  | nil => simp [dedupKeys] at h
  | cons m t ih =>
    obtain ⟨a, b⟩ := m
    simp only [dedupKeys, List.map_cons, List.mem_cons] at h ⊢
    rcases h with e | e
    · exact Or.inl e
    · right
      apply ih
      obtain ⟨x, hx, hxk⟩ := List.mem_map.1 e
      exact List.mem_map.2 ⟨x, (List.mem_filter.1 hx).1, hxk⟩

theorem nodup_keys_dedupKeys {α : Type} (o : List (String × α)) :
    ((dedupKeys o).map Prod.fst).Nodup := by
  induction o with
  | nil => simp [dedupKeys]
  | cons m t ih =>
    obtain ⟨a, b⟩ := m
    simp only [dedupKeys, List.map_cons, List.nodup_cons]
    constructor
    · intro h
      obtain ⟨x, hx, hxk⟩ := List.mem_map.1 h
      have := (List.mem_filter.1 hx).2
      simp [hxk] at this
    · exact (ih.sublist ((List.filter_sublist _).map Prod.fst))

theorem lookup_assignAll {α : Type} (u : List (String × α)) (hnd : (u.map Prod.fst).Nodup)
    (f : List (String × α)) (k : String) :
    lookup (assignAll f u) k = (lookup u k).orElse (fun _ => lookup f k) := by
  induction u generalizing f with
  | nil => simp [assignAll, lookup]
  | cons m t ih =>
    obtain ⟨a, b⟩ := m
    simp only [List.map_cons, List.nodup_cons] at hnd
    have step : assignAll f ((a, b) :: t) = assignAll (assign f a b) t := by
      simp [assignAll]
    rw [step, ih hnd.2]
    by_cases h : a = k
    · subst h
      simp [lookup, lookup_eq_none_of_not_mem t a hnd.1, lookup_assign]
    · simp [lookup, h, lookup_assign]

theorem assign_eq_self {α : Type} (o : List (String × α)) (k : String) (v : α)
    (h : lookup o k = some v) : assign o k v = o := by
  induction o with
  | nil => cases h
  | cons m t ih =>
    obtain ⟨a, b⟩ := m
    by_cases ha : a = k
    · subst ha
      simp only [lookup, if_true, Option.some.injEq] at h
      simp [assign, h]
    · simp only [lookup, if_neg ha] at h
      simp [assign, ha, ih h]

theorem assignAll_eq_self {α : Type} (u f : List (String × α))
    (h : ∀ m ∈ u, lookup f m.1 = some m.2) : assignAll f u = f := by
  induction u with
  | nil => rfl
  | cons m t ih =>
    have step : assignAll f (m :: t) = assignAll (assign f m.1 m.2) t := by
      simp [assignAll]
    rw [step, assign_eq_self f m.1 m.2 (h m (List.mem_cons_self _ _))]
    exact ih (fun x hx => h x (List.mem_cons_of_mem _ hx))

theorem findOne_id (docs : List Doc) (i : ObjId) (d : Doc) (h : findOne docs i = some d) :
    d._id = i := by
  have := List.find?_some h
  simpa using this

theorem findOne_mem (docs : List Doc) (i : ObjId) (d : Doc) (h : findOne docs i = some d) :
    d ∈ docs :=
  List.mem_of_find?_eq_some h

theorem findOne_replaceFirst (docs : List Doc) (i : ObjId) (d n : Doc)
    (h : findOne docs i = some d) (hn : n._id = i) :
    findOne (replaceFirst docs i n) i = some n := by
  induction docs with
  | nil => cases h
  | cons x t ih =>
    by_cases hx : x._id = i
    · simp [replaceFirst, hx, findOne, hn]
    · have ht : findOne t i = some d := by
        simpa [findOne, List.find?, hx] using h
      have := ih ht
      simp only [findOne] at this
      simp [replaceFirst, hx, findOne, List.find?, this]

theorem mem_replaceFirst (docs : List Doc) (i : ObjId) (n x : Doc)
    (h : x ∈ replaceFirst docs i n) : x ∈ docs ∨ x = n := by
  induction docs with
  | nil => cases h
  | cons y t ih =>
    by_cases hy : y._id = i
    · simp only [replaceFirst, if_pos hy, List.mem_cons] at h
      rcases h with e | e
      · exact Or.inr e
      · exact Or.inl (List.mem_cons_of_mem _ e)
    · simp only [replaceFirst, if_neg hy, List.mem_cons] at h
      rcases h with e | e
      · exact Or.inl (e ▸ List.mem_cons_self _ _)
      · rcases ih e with e' | e'
        · exact Or.inl (List.mem_cons_of_mem _ e')
        · exact Or.inr e'

theorem mem_removeFirst (docs : List Doc) (i : ObjId) (x : Doc)
    (h : x ∈ removeFirst docs i) : x ∈ docs := by
  induction docs with
  | nil => cases h
  | cons y t ih =>
    by_cases hy : y._id = i
    · simp only [removeFirst, if_pos hy] at h
      exact List.mem_cons_of_mem _ h
    · simp only [removeFirst, if_neg hy, List.mem_cons] at h
      rcases h with e | e
      · exact e ▸ List.mem_cons_self _ _
      · exact List.mem_cons_of_mem _ (ih e)

theorem nodup_keys_mergedFields (ex : List (String × Json)) (body : Body)
    (h : (ex.map Prod.fst).Nodup) : ((mergedFields ex body).map Prod.fst).Nodup := by
  have h0 : ((ex.map (fun m => (m.1, Lit.val (some m.2)))).map Prod.fst).Nodup := by
    simpa [List.map_map, Function.comp_def] using h
  unfold mergedFields
  exact nodup_keys_assign _ _ _ (nodup_keys_assign _ _ _ (nodup_keys_assign _ _ _
    (nodup_keys_assign _ _ _ (nodup_keys_assign _ _ _ (nodup_keys_assign _ _ _
    (nodup_keys_assign _ _ _ (nodup_keys_assign _ _ _ (nodup_keys_assign _ _ _ h0))))))))

theorem updateData_ok (existing : Doc) (body : Body) (n : Json)
    (hn : lookup existing.fields "nudge" = some n) (hnn : n ≠ .null) :
    ∃ tg ti : JsVal,
      updateData existing body = .ok (assign (mergedFields (existingObject existing) body)
        "nudge" (.obj [("tagged", .val tg), ("title", .val ti)])) ∧
      (∀ v, lookup body "tagged" = some v → tg = some v) ∧
      (lookup body "tagged" = none → prop (some n) "tagged" = .ok tg) ∧
      (∀ v, lookup body "nudgeTitle" = some v → ti = some v) ∧
      (lookup body "nudgeTitle" = none → prop (some n) "title" = .ok ti) := by
  have hn' : lookup (existingObject existing) "nudge" = some n := by
    rw [existingObject, lookup_dedupKeys]; exact hn
  obtain ⟨tg, htg, htg1, htg2⟩ :=
    nudgeMember_ok (existingObject existing) body "tagged" "tagged" n hn' hnn
  obtain ⟨ti, hti, hti1, hti2⟩ :=
    nudgeMember_ok (existingObject existing) body "nudgeTitle" "title" n hn' hnn
  exact ⟨tg, ti, by simp [updateData, htg, hti], htg1, htg2, hti1, hti2⟩

theorem putEvent_of_updateData (env : Env) (db : Db) (id : String) (body : Body) (oid : ObjId)
    (existing : Doc) (lit : List (String × Lit))
    (hc : env.connects = true) (hid : newObjectId id = .ok oid) (hf0 : env.fault 0 = false)
    (hf1 : env.fault 1 = false) (hex : findOne db.events oid = some existing)
    (hu : updateData existing body = .ok lit) :
    putEvent env db id body =
      if assignAll existing.fields (toBsonMembers lit) = existing.fields then
        ⟨.sent 404 (.error "Event not found"), db,
          [.findOne oid, .updateOne oid ⟨existing._id, toBsonMembers lit⟩]⟩
      else
        ⟨.sent 200 (.message "Event updated"),
          { db with events := (replaceFirst db.events oid
              ⟨existing._id, assignAll existing.fields (toBsonMembers lit)⟩) },
          [.findOne oid, .updateOne oid ⟨existing._id, toBsonMembers lit⟩]⟩ := by
  have hdb : ({ db with events := db.events } : Db) = db := by cases db; rfl
  simp only [putEvent, connectToDatabase_connected env db hc, hid, hf0, hf1, hex, hu, updateOne]
  by_cases hsame : assignAll existing.fields (toBsonMembers lit) = existing.fields
  · simp [hsame, notFound, hdb]
  · simp [hsame]

theorem lookup_put_fields (existing : Doc) (body : Body) (nudge : Lit) (k : String) :
    lookup (assignAll existing.fields
        (toBsonMembers (assign (mergedFields (existingObject existing) body) "nudge" nudge))) k =
      if k = "nudge" then some nudge.toBson
      else if k ∈ mutableFields then
        some ((orExisting (lookup body k) (lookup existing.fields k)).getD .null)
      else lookup existing.fields k := by
  have hnd : ((toBsonMembers (assign (mergedFields (existingObject existing) body)
      "nudge" nudge)).map Prod.fst).Nodup := by
    rw [keys_toBsonMembers]
    exact nodup_keys_assign _ _ _
      (nodup_keys_mergedFields _ _ (nodup_keys_dedupKeys existing.fields))
  rw [lookup_assignAll _ hnd, lookup_toBsonMembers, lookup_assign, lookup_mergedFields]
  by_cases h1 : k = "nudge"
  · subst h1
    simp
  · have h1' : ¬ "nudge" = k := fun e => h1 e.symm
    simp only [if_neg h1, if_neg h1']
    by_cases h2 : k ∈ mutableFields
    · simp [h2, Lit.toBson, existingObject, lookup_dedupKeys]
    · simp only [if_neg h2, existingObject, lookup_dedupKeys]
      cases lookup existing.fields k with
      | none => simp
      | some w => simp [Lit.toBson]

theorem findOne_after_put (env : Env) (db : Db) (id : String) (body : Body) (oid : ObjId)
    (existing : Doc) (lit : List (String × Lit))
    (hc : env.connects = true) (hid : newObjectId id = .ok oid) (hf0 : env.fault 0 = false)
    (hf1 : env.fault 1 = false) (hex : findOne db.events oid = some existing)
    (hu : updateData existing body = .ok lit) :
    findOne (putEvent env db id body).db.events oid =
      some ⟨existing._id, assignAll existing.fields (toBsonMembers lit)⟩ := by
  rw [putEvent_of_updateData env db id body oid existing lit hc hid hf0 hf1 hex hu]
  by_cases hsame : assignAll existing.fields (toBsonMembers lit) = existing.fields
  · rw [if_pos hsame, hsame]
    exact hex
  · rw [if_neg hsame]
    exact findOne_replaceFirst db.events oid existing _ hex (findOne_id db.events oid existing hex)

theorem nodup_put_literal (existing : Doc) (body : Body) (nudge : Lit) :
    ((toBsonMembers (assign (mergedFields (existingObject existing) body)
      "nudge" nudge)).map Prod.fst).Nodup := by
  rw [keys_toBsonMembers]
  exact nodup_keys_assign _ _ _
    (nodup_keys_mergedFields _ _ (nodup_keys_dedupKeys existing.fields))

theorem lookup_put_literal (existing : Doc) (body : Body) (nudge : Lit) (k : String) :
    lookup (toBsonMembers (assign (mergedFields (existingObject existing) body)
        "nudge" nudge)) k =
      if k = "nudge" then some nudge.toBson
      else if k ∈ mutableFields then
        some ((orExisting (lookup body k) (lookup existing.fields k)).getD .null)
      else lookup existing.fields k := by
  rw [lookup_toBsonMembers, lookup_assign, lookup_mergedFields]
  by_cases h1 : k = "nudge"
  · subst h1
    simp
  · have h1' : ¬ "nudge" = k := fun e => h1 e.symm
    simp only [if_neg h1, if_neg h1']
    by_cases h2 : k ∈ mutableFields
    · simp [h2, Lit.toBson, existingObject, lookup_dedupKeys]
    · simp only [if_neg h2, existingObject, lookup_dedupKeys]
      cases lookup existing.fields k with
      | none => simp
      | some w => simp [Lit.toBson]

theorem updateData_inv (existing : Doc) (body : Body) (lit : List (String × Lit))
    (h : updateData existing body = .ok lit) :
    ∃ tg ti : JsVal, lit = assign (mergedFields (existingObject existing) body) "nudge"
      (.obj [("tagged", .val tg), ("title", .val ti)]) := by
  unfold updateData at h
  cases h1 : nudgeMember (existingObject existing) body "tagged" "tagged" with
  | error e => simp [h1] at h
  | ok tg =>
    cases h2 : nudgeMember (existingObject existing) body "nudgeTitle" "title" with
    | error e => simp [h1, h2] at h
    | ok ti =>
      simp only [h1, h2, Except.ok.injEq] at h
      exact ⟨tg, ti, h.symm⟩

theorem hasNudge_put_document (existing : Doc) (body : Body) (tg ti : JsVal) :
    hasNudge ⟨existing._id, assignAll existing.fields (toBsonMembers
      (assign (mergedFields (existingObject existing) body) "nudge"
        (.obj [("tagged", .val tg), ("title", .val ti)])))⟩ = true := by
  simp [hasNudge, lookup_put_fields, Lit.toBson, toBsonMembers, isNudgeObject]

theorem putEvent_events (env : Env) (db : Db) (id : String) (body : Body) (d : Doc)
    (hd : d ∈ (putEvent env db id body).db.events) : d ∈ db.events ∨ hasNudge d = true := by
  by_cases hc : env.connects = true
  swap
  · left; simpa [putEvent, connectToDatabase, hc] using hd
  cases hid : newObjectId id with
  | error e => left; simpa [putEvent, connectToDatabase, hc, hid] using hd
  | ok oid =>
    by_cases hf0 : env.fault 0 = true
    · left; simpa [putEvent, connectToDatabase, hc, hid, hf0] using hd
    cases hex : findOne db.events oid with
    | none => left; simpa [putEvent, connectToDatabase, hc, hid, hf0, hex] using hd
    | some existing =>
      cases hu : updateData existing body with
      | error e => left; simpa [putEvent, connectToDatabase, hc, hid, hf0, hex, hu] using hd
      | ok lit =>
        by_cases hf1 : env.fault 1 = true
        · left; simpa [putEvent, connectToDatabase, hc, hid, hf0, hex, hu, hf1] using hd
        · have hf0' : env.fault 0 = false := by simpa using hf0
          have hf1' : env.fault 1 = false := by simpa using hf1
          rw [putEvent_of_updateData env db id body oid existing lit hc hid hf0' hf1' hex hu]
            at hd
          by_cases hsame : assignAll existing.fields (toBsonMembers lit) = existing.fields
          · rw [if_pos hsame] at hd
            exact Or.inl hd
          · rw [if_neg hsame] at hd
            rcases mem_replaceFirst _ _ _ _ hd with h | h
            · exact Or.inl h
            · right
              obtain ⟨tg, ti, hlit⟩ := updateData_inv existing body lit hu
              rw [h, hlit]
              exact hasNudge_put_document existing body tg ti

theorem isNudgeObject_members (ms : List (String × Json))
    (h : isNudgeObject (.obj ms) = true) :
    (lookup ms "tagged").isSome = true ∧ (lookup ms "title").isSome = true := by
  match ms, h with
  | [(a, x), (b, y)], h =>
    simp only [isNudgeObject, Bool.or_eq_true, Bool.and_eq_true, beq_iff_eq] at h
    rcases h with ⟨ha, hb⟩ | ⟨ha, hb⟩ <;> subst ha <;> subst hb <;> simp [lookup]

theorem mem_of_lookup {α : Type} (o : List (String × α)) (k : String) (v : α)
    (h : lookup o k = some v) : (k, v) ∈ o := by
  induction o with
  | nil => cases h
  | cons m t ih =>
    obtain ⟨a, b⟩ := m
    by_cases ha : a = k
    · subst ha
      simp only [lookup, if_true, Option.some.injEq] at h
      subst h
      exact List.mem_cons_self _ _
    · simp only [lookup, if_neg ha] at h
      exact List.mem_cons_of_mem _ (ih h)

theorem assignAll_eq_assign {α : Type} (u f : List (String × α)) (k : String) (v : α)
    (hnd : (u.map Prod.fst).Nodup) (hmem : (k, v) ∈ u)
    (h : ∀ m ∈ u, m.1 ≠ k → lookup f m.1 = some m.2) : assignAll f u = assign f k v := by
  induction u with
  | nil => cases hmem
  | cons m t ih =>
    obtain ⟨a, b⟩ := m
    simp only [List.map_cons, List.nodup_cons] at hnd
    have step : assignAll f ((a, b) :: t) = assignAll (assign f a b) t := by
      simp [assignAll]
    rw [step]
    by_cases ha : a = k
    · subst ha
      have hb : b = v := by
        rcases List.mem_cons.1 hmem with e | e
        · cases e; rfl
        · exact absurd (List.mem_map.2 ⟨(a, v), e, rfl⟩) hnd.1
      subst hb
      apply assignAll_eq_self
      intro x hx
      have hxa : x.1 ≠ a := by
        intro e
        exact hnd.1 (e ▸ List.mem_map.2 ⟨x, hx, rfl⟩)
      rw [lookup_assign, if_neg (fun e => hxa e.symm)]
      exact h x (List.mem_cons_of_mem _ hx) hxa
    · have hself : assign f a b = f :=
        assign_eq_self f a b (h (a, b) (List.mem_cons_self _ _) ha)
      rw [hself]
      apply ih hnd.2
      · rcases List.mem_cons.1 hmem with e | e
        · cases e; exact absurd rfl ha
        · exact e
      · intro x hx hxk
        exact h x (List.mem_cons_of_mem _ hx) hxk

/-- C3, as amended: for an existing event that holds the other eight mutable
fields and whose `nudge` is an object with exactly the fields `tagged` and
`title`, and a `PUT` whose body supplies `name` and none of the other mutable
keys, with a reachable store and no failing call, the stored document
afterwards has the same identifier, `name` equal to the supplied value, every
other top-level field (`type`, `uid`, `attendees` and the remaining mutable
fields included) equal to its value before, and `nudge` again an object with
exactly the fields `tagged` and `title`, holding their values before; when
`nudge` was stored as `{tagged, title}` in that order, the document afterwards
is the document before with `name` set. -/
theorem put_name_only_frame (env : Env) (db : Db) (id : String) (body : Body) (oid : ObjId)
    (existing : Doc) (ms : List (String × Json)) (v : Json)
    (hc : env.connects = true) (hid : newObjectId id = .ok oid) (hf0 : env.fault 0 = false)
    (hf1 : env.fault 1 = false) (hex : findOne db.events oid = some existing)
    (hfields : ∀ k ∈ mutableFields, k ≠ "name" → (lookup existing.fields k).isSome = true)
    (hnudge : lookup existing.fields "nudge" = some (.obj ms))
    (hshape : isNudgeObject (.obj ms) = true)
    (hname : lookup body "name" = some v)
    (honly : ∀ k ∈ mutableFields, k ≠ "name" → lookup body k = none)
    (hnt : lookup body "tagged" = none) (hnti : lookup body "nudgeTitle" = none) :
    ∃ (d : Doc) (ms' : List (String × Json)),
      findOne (putEvent env db id body).db.events oid = some d ∧
      d._id = existing._id ∧
      lookup d.fields "name" = some v ∧
      (∀ k, k ≠ "name" → k ≠ "nudge" → lookup d.fields k = lookup existing.fields k) ∧
      lookup d.fields "nudge" = some (.obj ms') ∧
      isNudgeObject (.obj ms') = true ∧
      lookup ms' "tagged" = lookup ms "tagged" ∧
      lookup ms' "title" = lookup ms "title" ∧
      (∀ t ti, ms = [("tagged", t), ("title", ti)] →
        d.fields = assign existing.fields "name" v) := by
  obtain ⟨tg, ti, hu, -, htg, -, hti⟩ :=
    updateData_ok existing body (.obj ms) hnudge (by intro e; cases e)
  have htg' : tg = lookup ms "tagged" := by
    have := htg hnt
    simp only [prop, Except.ok.injEq] at this
    exact this.symm
  have hti' : ti = lookup ms "title" := by
    have := hti hnti
    simp only [prop, Except.ok.injEq] at this
    exact this.symm
  obtain ⟨htagged, htitle⟩ := isNudgeObject_members ms hshape
  obtain ⟨t, ht⟩ := Option.isSome_iff_exists.1 htagged
  obtain ⟨t', ht'⟩ := Option.isSome_iff_exists.1 htitle
  refine ⟨⟨existing._id, assignAll existing.fields (toBsonMembers
      (assign (mergedFields (existingObject existing) body) "nudge"
        (.obj [("tagged", .val tg), ("title", .val ti)])))⟩,
    [("tagged", t), ("title", t')],
    findOne_after_put env db id body oid existing _ hc hid hf0 hf1 hex hu, rfl,
    ?_, ?_, ?_, ?_, ?_, ?_, ?_⟩
  · rw [lookup_put_fields]
    simp [mutableFields, hname, orExisting]
  · intro k hk1 hk2
    rw [lookup_put_fields, if_neg hk2]
    by_cases hm : k ∈ mutableFields
    · rw [if_pos hm, honly k hm hk1]
      obtain ⟨w, hw⟩ := Option.isSome_iff_exists.1 (hfields k hm hk1)
      simp [orExisting, hw]
    · rw [if_neg hm]
  · rw [lookup_put_fields]
    simp [Lit.toBson, toBsonMembers, htg', hti', ht, ht']
  · simp [isNudgeObject]
  · simp [lookup, ht]
  · simp [lookup, ht']
  · intro a b hms
    subst hms
    have hta : t = a := by simpa [lookup] using ht.symm
    have htb : t' = b := by simpa [lookup] using ht'.symm
    subst hta htb
    have htg'' : tg = some t := by rw [htg']; simp [lookup]
    have hti'' : ti = some t' := by rw [hti']; simp [lookup]
    subst htg'' hti''
    apply assignAll_eq_assign _ _ _ _ (nodup_put_literal existing body _)
    · apply mem_of_lookup
      rw [lookup_put_literal]
      simp [mutableFields, hname, orExisting]
    · intro m hm hmk
      have hl := lookup_of_mem _ m.1 m.2 (nodup_put_literal existing body _) hm
      rw [lookup_put_literal] at hl
      rw [← hl]
      by_cases h1 : m.1 = "nudge"
      · rw [if_pos h1, h1, hnudge]
        simp [Lit.toBson, toBsonMembers]
      · rw [if_neg h1]
        by_cases h2 : m.1 ∈ mutableFields
        · rw [if_pos h2, honly m.1 h2 hmk]
          obtain ⟨w, hw⟩ := Option.isSome_iff_exists.1 (hfields m.1 h2 hmk)
          simp [hw, orExisting]
        · rw [if_neg h2]

/-- Witness of C3 (amended): renaming the sample event. -/
theorem put_name_only_frame_witness :
    findOne sampleDb.events 1 = some sampleEvent ∧
    ∃ (d : Doc) (ms' : List (String × Json)),
      findOne (putEvent (healthyEnv 2) sampleDb sampleId [("name", .str "Renamed")]).db.events 1 =
        some d ∧
      d._id = sampleEvent._id ∧
      lookup d.fields "name" = some (.str "Renamed") ∧
      (∀ k, k ≠ "name" → k ≠ "nudge" → lookup d.fields k = lookup sampleEvent.fields k) ∧
      lookup d.fields "nudge" = some (.obj ms') ∧
      isNudgeObject (.obj ms') = true ∧
      lookup ms' "tagged" =
        lookup ([("tagged", .bool true), ("title", .str "Join")] : List (String × Json))
          "tagged" ∧
      lookup ms' "title" =
        lookup ([("tagged", .bool true), ("title", .str "Join")] : List (String × Json))
          "title" ∧
      (∀ t ti, ([("tagged", .bool true), ("title", .str "Join")] : List (String × Json)) =
          [("tagged", t), ("title", ti)] →
        d.fields = assign sampleEvent.fields "name" (.str "Renamed")) :=
  ⟨by decide,
    put_name_only_frame (healthyEnv 2) sampleDb sampleId [("name", .str "Renamed")] 1 sampleEvent
      [("tagged", .bool true), ("title", .str "Join")] (.str "Renamed")
      rfl (by decide) rfl rfl (by decide) (by decide) (by decide) (by decide) (by decide)
      (by decide) (by decide) (by decide)⟩

/-- Counterexample to C3 as stated: on a stored event that holds only `type`,
`name` and `nudge`, a `PUT` supplying only `name` answers 200 and leaves
`files` and `tagline`, absent before, stored as `null`; and on a stored event
without `nudge` the same `PUT` answers 500 and the name is not changed. -/
theorem put_name_only_counterexample :
    lookup sparseEvent.fields "files" = none ∧
    lookup sparseEvent.fields "tagline" = none ∧
    (putEvent (healthyEnv 2) ⟨[sparseEvent], []⟩ sampleId [("name", .str "Renamed")]).outcome =
      .sent 200 (.message "Event updated") ∧
    (putEvent (healthyEnv 2) ⟨[sparseEvent], []⟩ sampleId
        [("name", .str "Renamed")]).db.events.map (fun d => lookup d.fields "files") =
      [some .null] ∧
    (putEvent (healthyEnv 2) ⟨[sparseEvent], []⟩ sampleId
        [("name", .str "Renamed")]).db.events.map (fun d => lookup d.fields "tagline") =
      [some .null] ∧
    (putEvent (healthyEnv 2) ⟨[bareEvent], []⟩ sampleId [("name", .str "Renamed")]).outcome =
      .sent 500 (.error "Internal server error") ∧
    (putEvent (healthyEnv 2) ⟨[bareEvent], []⟩ sampleId
        [("name", .str "Renamed")]).db.events.map (fun d => lookup d.fields "name") =
      [some (.str "Meetup")] := by
  decide

/-- C9, as amended: `PUT /events/:id` on an existing event whose `nudge` is
present and not `null` (reachable store, no failing call) answers 200
`{message: "Event updated"}` when the store's update reports a modified count
of 1 and 404 `{error: "Event not found"}` otherwise.  For an event that holds
the nine mutable fields and whose `nudge` is stored as `{tagged, title}` in
that order, and a body each of whose provided values equals the stored value
(the empty body included), the update modifies no document, the database is
unchanged and the answer is that 404 although the event exists.  When the body
provides, for a mutable field, a value other than the stored one, the update
modifies the document and the answer is 200. -/
theorem put_status_from_modified_count (env : Env) (db : Db) (id : String) (body : Body)
    (oid : ObjId) (existing : Doc) (nudge : Json)
    (hc : env.connects = true) (hid : newObjectId id = .ok oid) (hf0 : env.fault 0 = false)
    (hf1 : env.fault 1 = false) (hex : findOne db.events oid = some existing)
    (hn : lookup existing.fields "nudge" = some nudge) (hnn : nudge ≠ .null) :
    (∃ (set : Doc) (events : List Doc) (result : UpdateResult),
      (putEvent env db id body).calls = [.findOne oid, .updateOne oid set] ∧
      updateOne db.events oid set = .ok (events, result) ∧
      (putEvent env db id body).db.events = events ∧
      (result.modifiedCount = 1 →
        (putEvent env db id body).outcome = .sent 200 (.message "Event updated")) ∧
      (result.modifiedCount ≠ 1 →
        (putEvent env db id body).outcome = .sent 404 (.error "Event not found"))) ∧
    (∀ t ti : Json, nudge = .obj [("tagged", t), ("title", ti)] →
      (∀ k ∈ mutableFields, (lookup existing.fields k).isSome = true) →
      (∀ k ∈ mutableFields, lookup body k = none ∨ lookup body k = lookup existing.fields k) →
      (lookup body "tagged" = none ∨ lookup body "tagged" = some t) →
      (lookup body "nudgeTitle" = none ∨ lookup body "nudgeTitle" = some ti) →
      ∃ set : Doc,
        (putEvent env db id body).calls = [.findOne oid, .updateOne oid set] ∧
        updateOne db.events oid set = .ok (db.events, ⟨1, 0⟩) ∧
        (putEvent env db id body).db = db ∧
        (putEvent env db id body).outcome = .sent 404 (.error "Event not found")) ∧
    (∀ k ∈ mutableFields, ∀ v : Json, lookup body k = some v →
      lookup existing.fields k ≠ some v →
      ∃ (set : Doc) (events : List Doc) (d : Doc),
        (putEvent env db id body).calls = [.findOne oid, .updateOne oid set] ∧
        updateOne db.events oid set = .ok (events, ⟨1, 1⟩) ∧
        (putEvent env db id body).db.events = events ∧
        findOne events oid = some d ∧ lookup d.fields k = some v ∧
        (putEvent env db id body).outcome = .sent 200 (.message "Event updated")) := by
  obtain ⟨tg, ti', hu, htg1, htg2, hti1, hti2⟩ := updateData_ok existing body nudge hn hnn
  have hput := putEvent_of_updateData env db id body oid existing _ hc hid hf0 hf1 hex hu
  refine ⟨?_, ?_, ?_⟩
  · by_cases hsame : assignAll existing.fields (toBsonMembers
        (assign (mergedFields (existingObject existing) body) "nudge"
          (.obj [("tagged", .val tg), ("title", .val ti')]))) = existing.fields
    · rw [if_pos hsame] at hput
      refine ⟨_, db.events, ⟨1, 0⟩, by rw [hput], ?_, by rw [hput], ?_, ?_⟩
      · simp [updateOne, hex, hsame]
      · intro h; simp at h
      · intro _; rw [hput]
    · rw [if_neg hsame] at hput
      refine ⟨_, _, ⟨1, 1⟩, by rw [hput], ?_, by rw [hput], ?_, ?_⟩
      · simp [updateOne, hex, hsame]
      · intro _; rw [hput]
      · intro h; simp at h
  · intro t ti hshape hfields hbody hbt hbti
    subst hshape
    have htg : tg = some t := by
      rcases hbt with h | h
      · have := htg2 h
        simp only [prop, lookup, if_true, Except.ok.injEq] at this
        exact this.symm
      · exact htg1 t h
    have hti : ti' = some ti := by
      rcases hbti with h | h
      · have := hti2 h
        simp [prop, lookup] at this
        exact this.symm
      · exact hti1 ti h
    subst htg hti
    have hsame : assignAll existing.fields (toBsonMembers
        (assign (mergedFields (existingObject existing) body) "nudge"
          (.obj [("tagged", .val (some t)), ("title", .val (some ti))]))) = existing.fields := by
      apply assignAll_eq_self
      intro m hm
      have hl := lookup_of_mem _ m.1 m.2 (nodup_put_literal existing body _) hm
      rw [lookup_put_literal] at hl
      rw [← hl]
      by_cases h1 : m.1 = "nudge"
      · rw [if_pos h1, h1, hn]
        simp [Lit.toBson, toBsonMembers]
      · rw [if_neg h1]
        by_cases h2 : m.1 ∈ mutableFields
        · rw [if_pos h2]
          obtain ⟨w, hw⟩ := Option.isSome_iff_exists.1 (hfields m.1 h2)
          rcases hbody m.1 h2 with h | h
          · simp [h, hw, orExisting]
          · simp [h, hw, orExisting]
        · rw [if_neg h2]
    rw [if_pos hsame] at hput
    refine ⟨_, by rw [hput], ?_, by rw [hput], by rw [hput]⟩
    simp [updateOne, hex, hsame]
  · intro k hk v hv hne
    have hkn : k ≠ "nudge" := by
      intro e; subst e; simp [mutableFields] at hk
    have hlk : lookup (assignAll existing.fields (toBsonMembers
        (assign (mergedFields (existingObject existing) body) "nudge"
          (.obj [("tagged", .val tg), ("title", .val ti')])))) k = some v := by
      rw [lookup_put_fields, if_neg hkn, if_pos hk, hv]
      simp [orExisting]
    have hdiff : ¬ assignAll existing.fields (toBsonMembers
        (assign (mergedFields (existingObject existing) body) "nudge"
          (.obj [("tagged", .val tg), ("title", .val ti')]))) = existing.fields := by
      intro e
      rw [e] at hlk
      exact hne hlk
    rw [if_neg hdiff] at hput
    refine ⟨⟨existing._id, toBsonMembers
        (assign (mergedFields (existingObject existing) body) "nudge"
          (.obj [("tagged", .val tg), ("title", .val ti')]))⟩,
      replaceFirst db.events oid ⟨existing._id, assignAll existing.fields (toBsonMembers
        (assign (mergedFields (existingObject existing) body) "nudge"
          (.obj [("tagged", .val tg), ("title", .val ti')])))⟩,
      ⟨existing._id, assignAll existing.fields (toBsonMembers
        (assign (mergedFields (existingObject existing) body) "nudge"
          (.obj [("tagged", .val tg), ("title", .val ti')])))⟩,
      by rw [hput], ?_, by rw [hput], ?_, hlk, by rw [hput]⟩
    · simp [updateOne, hex, hdiff]
    · exact findOne_replaceFirst db.events oid existing _ hex
        (findOne_id db.events oid existing hex)

/-- Witness of C9 (amended): on the sample event the empty body is answered
404 with nothing modified, and a new name is answered 200. -/
theorem put_status_from_modified_count_witness :
    findOne sampleDb.events 1 = some sampleEvent ∧
    (∃ set : Doc,
      (putEvent (healthyEnv 2) sampleDb sampleId []).calls = [.findOne 1, .updateOne 1 set] ∧
      updateOne sampleDb.events 1 set = .ok (sampleDb.events, ⟨1, 0⟩) ∧
      (putEvent (healthyEnv 2) sampleDb sampleId []).db = sampleDb ∧
      (putEvent (healthyEnv 2) sampleDb sampleId []).outcome =
        .sent 404 (.error "Event not found")) ∧
    (putEvent (healthyEnv 2) sampleDb sampleId [("name", .str "Renamed")]).outcome =
      .sent 200 (.message "Event updated") :=
  ⟨by decide,
    (put_status_from_modified_count (healthyEnv 2) sampleDb sampleId [] 1 sampleEvent
      (.obj [("tagged", .bool true), ("title", .str "Join")])
      rfl (by decide) rfl rfl (by decide) (by decide) (by decide)).2.1
      (.bool true) (.str "Join") rfl (by decide) (by decide) (by decide) (by decide),
    by decide⟩

/-- Counterexample to C9 as stated: the empty body, all of whose provided
values trivially equal the stored ones, is answered 200 with one document
modified on an existing event that lacks mutable fields and on one whose
`nudge` is stored as `{title, tagged}`, and is answered 500 on an existing
event without `nudge`. -/
theorem put_noop_counterexample :
    findOne [sparseEvent] 1 = some sparseEvent ∧
    (putEvent (healthyEnv 2) ⟨[sparseEvent], []⟩ sampleId []).outcome =
      .sent 200 (.message "Event updated") ∧
    (putEvent (healthyEnv 2) ⟨[sparseEvent], []⟩ sampleId []).db.events ≠ [sparseEvent] ∧
    (putEvent (healthyEnv 2) ⟨[swappedEvent], []⟩ sampleId []).outcome =
      .sent 200 (.message "Event updated") ∧
    findOne [bareEvent] 1 = some bareEvent ∧
    (putEvent (healthyEnv 2) ⟨[bareEvent], []⟩ sampleId []).outcome =
      .sent 500 (.error "Internal server error") := by
  decide

/-- C10: if every stored event has `nudge` as an object with exactly the two
fields `tagged` and `title`, then so does every stored event after any `POST
/events`, `PUT /events/:id` or `DELETE /events/:id`, whatever the body and the
environment; and a successful `PUT` stores each `nudge` sub-field the body
supplies and leaves a sub-field the body does not supply at its stored value. -/
theorem nudge_shape_invariant (env : Env) (db : Db) (id : String) (body : Body)
    (hinv : ∀ d ∈ db.events, hasNudge d = true) :
    (∀ d ∈ (postEvent env db body).db.events, hasNudge d = true) ∧
    (∀ d ∈ (putEvent env db id body).db.events, hasNudge d = true) ∧
    (∀ d ∈ (deleteEvent env db id).db.events, hasNudge d = true) ∧
    (∀ (oid : ObjId) (existing : Doc) (ms : List (String × Json)),
      env.connects = true → newObjectId id = .ok oid → env.fault 0 = false →
      env.fault 1 = false → findOne db.events oid = some existing →
      lookup existing.fields "nudge" = some (.obj ms) →
      ∃ (d : Doc) (ms' : List (String × Json)),
        findOne (putEvent env db id body).db.events oid = some d ∧
        lookup d.fields "nudge" = some (.obj ms') ∧
        (lookup body "tagged" = none → lookup ms' "tagged" = lookup ms "tagged") ∧
        (lookup body "nudgeTitle" = none → lookup ms' "title" = lookup ms "title") ∧
        (∀ v, lookup body "tagged" = some v → lookup ms' "tagged" = some v) ∧
        (∀ v, lookup body "nudgeTitle" = some v → lookup ms' "title" = some v)) := by
  refine ⟨?_, ?_, ?_, ?_⟩
  · intro d hd
    by_cases hc : env.connects = true
    swap
    · exact hinv d (by simpa [postEvent, connectToDatabase, hc] using hd)
    by_cases hf0 : env.fault 0 = true
    · exact hinv d (by simpa [postEvent, connectToDatabase, hc, hf0] using hd)
    by_cases hdup : (findOne db.events env.newId).isSome = true
    · exact hinv d (by simpa [postEvent, connectToDatabase, hc, hf0, insertOne, hdup] using hd)
    · simp only [postEvent, connectToDatabase_connected env db hc, hf0, insertOne, hdup] at hd
      simp only [Bool.not_true, Bool.false_eq_true, if_false, List.mem_append,
        List.mem_singleton] at hd
      rcases hd with h | h
      · exact hinv d h
      · subst h
        simp [hasNudge, eventLiteral, toBsonMembers, lookup, Lit.toBson, isNudgeObject]
  · intro d hd
    rcases putEvent_events env db id body d hd with h | h
    · exact hinv d h
    · exact h
  · intro d hd
    apply hinv
    by_cases hc : env.connects = true
    swap
    · simpa [deleteEvent, connectToDatabase, hc] using hd
    cases hid : newObjectId id with
    | error e => simpa [deleteEvent, connectToDatabase, hc, hid] using hd
    | ok oid =>
      by_cases hf0 : env.fault 0 = true
      · simpa [deleteEvent, connectToDatabase, hc, hid, hf0] using hd
      · have hd' : d ∈ (deleteOne db.events oid).1 := by
          simp only [deleteEvent, connectToDatabase_connected env db hc, hid, hf0] at hd
          by_cases hr : (deleteOne db.events oid).2 = 1 <;> simpa [hr] using hd
        unfold deleteOne at hd'
        cases hfo : findOne db.events oid with
        | none => simpa [hfo] using hd'
        | some x =>
          rw [hfo] at hd'
          exact mem_removeFirst _ _ _ hd'
  · intro oid existing ms hc hid hf0 hf1 hex hn
    obtain ⟨tg, ti, hu, htg1, htg2, hti1, hti2⟩ :=
      updateData_ok existing body (.obj ms) hn (by intro e; cases e)
    have hshape : isNudgeObject (.obj ms) = true := by
      have := hinv existing (findOne_mem _ _ _ hex)
      simpa [hasNudge, hn] using this
    obtain ⟨hmt, hmti⟩ := isNudgeObject_members ms hshape
    obtain ⟨t, ht⟩ := Option.isSome_iff_exists.1 hmt
    obtain ⟨t', ht'⟩ := Option.isSome_iff_exists.1 hmti
    refine ⟨_, [("tagged", tg.getD .null), ("title", ti.getD .null)],
      findOne_after_put env db id body oid existing _ hc hid hf0 hf1 hex hu, ?_, ?_, ?_, ?_, ?_⟩
    · rw [lookup_put_fields]
      simp [Lit.toBson, toBsonMembers]
    · intro hb
      have := htg2 hb
      simp only [prop, Except.ok.injEq] at this
      simp [lookup, ← this, ht]
    · intro hb
      have := hti2 hb
      simp only [prop, Except.ok.injEq] at this
      simp [lookup, ← this, ht']
    · intro v hv
      simp [lookup, htg1 v hv]
    · intro v hv
      simp [lookup, hti1 v hv]

/-- Witness of C10: a `PUT` supplying only `tagged` on the sample event, whose
database satisfies the invariant. -/
theorem nudge_shape_invariant_witness :
    (∀ d ∈ sampleDb.events, hasNudge d = true) ∧
    (∀ d ∈ (putEvent (healthyEnv 2) sampleDb sampleId [("tagged", .bool false)]).db.events,
      hasNudge d = true) ∧
    (putEvent (healthyEnv 2) sampleDb sampleId [("tagged", .bool false)]).db.events =
      [⟨1, [("type", .str "event"), ("uid", .null), ("name", .str "Meetup"), ("tagline", .null),
        ("schedule", .str "2024-05-01"), ("description", .null), ("files", .null),
        ("moderator", .null), ("category", .null), ("sub_category", .null),
        ("rigor_rank", .null), ("attendees", .arr []),
        ("nudge", .obj [("tagged", .bool false), ("title", .str "Join")])]⟩] :=
  ⟨by decide,
    (nudge_shape_invariant (healthyEnv 2) sampleDb sampleId [("tagged", .bool false)]
      (by decide)).2.1,
    by decide⟩

/-- C8, as amended: once the connection to the store has succeeded, each of the
five events endpoints answers 500 `{error: "Internal server error"}` and
leaves the database unchanged whenever an identifier fails to parse, a store
call throws, the store rejects the operation, or the merge of `PUT` throws,
while `POST /events/nudge` then sends no response; when connecting fails,
`connectToDatabase` ends the process and none of the six endpoints sends a
response. -/
theorem store_failure_responses (env : Env) (db : Db) (id : String) (qid type limit page :
    Option String) (body : Body) :
    (env.connects = true →
      (∀ e, newObjectId id = .error e →
        (id ≠ "" → getEvents env db (some id) =
          ⟨.sent 500 (.error "Internal server error"), db, []⟩) ∧
        putEvent env db id body = ⟨.sent 500 (.error "Internal server error"), db, []⟩ ∧
        deleteEvent env db id = ⟨.sent 500 (.error "Internal server error"), db, []⟩) ∧
      (env.fault 0 = true →
        (getEvents env db qid).outcome = .sent 500 (.error "Internal server error") ∧
        (getEvents env db qid).db = db ∧
        (getEventsPagination env db type limit page).outcome =
          .sent 500 (.error "Internal server error") ∧
        (getEventsPagination env db type limit page).db = db ∧
        (postEvent env db body).outcome = .sent 500 (.error "Internal server error") ∧
        (postEvent env db body).db = db ∧
        (putEvent env db id body).outcome = .sent 500 (.error "Internal server error") ∧
        (putEvent env db id body).db = db ∧
        (deleteEvent env db id).outcome = .sent 500 (.error "Internal server error") ∧
        (deleteEvent env db id).db = db ∧
        (postNudge env db body).outcome = .noResponse ∧
        (postNudge env db body).db = db) ∧
      (∀ e, findPage env.le env.irregularPage db.events (sortFor type)
          (skipOf (effectivePage page) (effectiveLimit limit)) (effectiveLimit limit) =
            .error e →
        (getEventsPagination env db type limit page).outcome =
          .sent 500 (.error "Internal server error") ∧
        (getEventsPagination env db type limit page).db = db) ∧
      (∀ e, insertOne db.events env.newId (toBsonMembers (eventLiteral body)) = .error e →
        (postEvent env db body).outcome = .sent 500 (.error "Internal server error") ∧
        (postEvent env db body).db = db) ∧
      (∀ oid existing, newObjectId id = .ok oid → env.fault 0 = false →
        findOne db.events oid = some existing →
        ((∃ e, updateData existing body = .error e) ∨ env.fault 1 = true) →
        (putEvent env db id body).outcome = .sent 500 (.error "Internal server error") ∧
        (putEvent env db id body).db = db) ∧
      (∀ e, insertOne db.nudges env.newId (toBsonMembers (nudgeLiteral body)) = .error e →
        (postNudge env db body).outcome = .noResponse ∧ (postNudge env db body).db = db)) ∧
    (env.connects = false →
      getEvents env db qid = ⟨.processExit, db, []⟩ ∧
      getEventsPagination env db type limit page = ⟨.processExit, db, []⟩ ∧
      postEvent env db body = ⟨.processExit, db, []⟩ ∧
      putEvent env db id body = ⟨.processExit, db, []⟩ ∧
      deleteEvent env db id = ⟨.processExit, db, []⟩ ∧
      postNudge env db body = ⟨.processExit, db, []⟩) := by
  constructor
  · intro hc
    refine ⟨?_, ?_, ?_, ?_, ?_, ?_⟩
    · intro e he
      refine ⟨fun hne => ?_, ?_, ?_⟩
      · simp [getEvents, connectToDatabase, hc, hne, he, internalError]
      · simp [putEvent, connectToDatabase, hc, he, internalError]
      · simp [deleteEvent, connectToDatabase, hc, he, internalError]
    · intro hf
      have hget : (getEvents env db qid).outcome = .sent 500 (.error "Internal server error") ∧
          (getEvents env db qid).db = db := by
        cases qid with
        | none => simp [getEvents, connectToDatabase, hc, listEvents, hf, internalError]
        | some s =>
          by_cases hs : s = ""
          · simp [getEvents, connectToDatabase, hc, hs, listEvents, hf, internalError]
          · cases hp : newObjectId s <;>
              simp [getEvents, connectToDatabase, hc, hs, hp, hf, internalError]
      have hput : (putEvent env db id body).outcome =
          .sent 500 (.error "Internal server error") ∧ (putEvent env db id body).db = db := by
        cases hp : newObjectId id <;>
          simp [putEvent, connectToDatabase, hc, hp, hf, internalError]
      have hdel : (deleteEvent env db id).outcome =
          .sent 500 (.error "Internal server error") ∧ (deleteEvent env db id).db = db := by
        cases hp : newObjectId id <;>
          simp [deleteEvent, connectToDatabase, hc, hp, hf, internalError]
      refine ⟨hget.1, hget.2, ?_, ?_, ?_, ?_, hput.1, hput.2, hdel.1, hdel.2, ?_, ?_⟩
      · simp [getEventsPagination, connectToDatabase, hc, hf, internalError]
      · simp [getEventsPagination, connectToDatabase, hc, hf]
      · simp [postEvent, connectToDatabase, hc, hf, internalError]
      · simp [postEvent, connectToDatabase, hc, hf]
      · simp [postNudge, connectToDatabase, hc, hf]
      · simp [postNudge, connectToDatabase, hc, hf]
    · intro e he
      by_cases hf : env.fault 0 = true
      · simp [getEventsPagination, connectToDatabase, hc, hf, internalError]
      · simp [getEventsPagination, connectToDatabase, hc, hf, he, internalError]
    · intro e he
      by_cases hf : env.fault 0 = true
      · simp [postEvent, connectToDatabase, hc, hf, internalError]
      · simp [postEvent, connectToDatabase, hc, hf, he, internalError]
    · intro oid existing hid hf0 hex hfail
      rcases hfail with ⟨e, he⟩ | hf1
      · simp [putEvent, connectToDatabase, hc, hid, hf0, hex, he, internalError]
      · cases hu : updateData existing body with
        | error e => simp [putEvent, connectToDatabase, hc, hid, hf0, hex, hu, internalError]
        | ok lit => simp [putEvent, connectToDatabase, hc, hid, hf0, hex, hu, hf1, internalError]
    · intro e he
      by_cases hf : env.fault 0 = true
      · simp [postNudge, connectToDatabase, hc, hf]
      · simp [postNudge, connectToDatabase, hc, hf, he]
  · intro hc
    refine ⟨?_, ?_, ?_, ?_, ?_, ?_⟩
    · simp [getEvents, connectToDatabase, hc]
    · simp [getEventsPagination, connectToDatabase, hc]
    · simp [postEvent, connectToDatabase, hc]
    · simp [putEvent, connectToDatabase, hc]
    · simp [deleteEvent, connectToDatabase, hc]
    · simp [postNudge, connectToDatabase, hc]

/-- Counterexample to C8 as stated: with the store unavailable (the connection
fails) `GET /events` does not answer 500; the process exits and no response is
sent, and likewise for the other events endpoints. -/
theorem unreachable_store_counterexample :
    (getEvents unreachableEnv sampleDb none).outcome = .processExit ∧
    (getEvents unreachableEnv sampleDb none).outcome ≠
      .sent 500 (.error "Internal server error") ∧
    (getEventsPagination unreachableEnv sampleDb none none none).outcome = .processExit ∧
    (postEvent unreachableEnv sampleDb []).outcome = .processExit ∧
    (putEvent unreachableEnv sampleDb sampleId []).outcome = .processExit ∧
    (deleteEvent unreachableEnv sampleDb sampleId).outcome = .processExit := by
  decide

/-- Witness of C8 (amended): with a reachable store whose calls all throw, the
five events endpoints answer 500 on the sample database and the nudge endpoint
sends nothing. -/
theorem store_failure_responses_witness :
    failingEnv.connects = true ∧ failingEnv.fault 0 = true ∧
    (getEvents failingEnv sampleDb (some sampleId)).outcome =
      .sent 500 (.error "Internal server error") ∧
    (getEvents failingEnv sampleDb (some sampleId)).db = sampleDb ∧
    (getEventsPagination failingEnv sampleDb none none none).outcome =
      .sent 500 (.error "Internal server error") ∧
    (getEventsPagination failingEnv sampleDb none none none).db = sampleDb ∧
    (postEvent failingEnv sampleDb []).outcome = .sent 500 (.error "Internal server error") ∧
    (postEvent failingEnv sampleDb []).db = sampleDb ∧
    (putEvent failingEnv sampleDb sampleId []).outcome =
      .sent 500 (.error "Internal server error") ∧
    (putEvent failingEnv sampleDb sampleId []).db = sampleDb ∧
    (deleteEvent failingEnv sampleDb sampleId).outcome =
      .sent 500 (.error "Internal server error") ∧
    (deleteEvent failingEnv sampleDb sampleId).db = sampleDb ∧
    (postNudge failingEnv sampleDb []).outcome = .noResponse ∧
    (postNudge failingEnv sampleDb []).db = sampleDb :=
  ⟨rfl, rfl,
    ((store_failure_responses failingEnv sampleDb sampleId (some sampleId) none none none
      []).1 rfl).2.1 rfl⟩

theorem isEventShaped_put_document (existing : Doc) (body : Body) (tg ti : JsVal) :
    isEventShaped ⟨existing._id, assignAll existing.fields (toBsonMembers
      (assign (mergedFields (existingObject existing) body) "nudge"
        (.obj [("tagged", .val tg), ("title", .val ti)])))⟩ = true := by
  simp [isEventShaped, lookup_put_fields, Lit.toBson, toBsonMembers, mutableFields]

/-- The shape assumed of existing events is an invariant of the write
endpoints: if every stored event has the nine mutable fields and a `nudge`
object `{tagged, title}`, so does every stored event after `POST /events`,
`PUT /events/:id` or `DELETE /events/:id`, in every environment. -/
theorem event_shape_preserved (env : Env) (db : Db) (id : String) (body : Body)
    (hinv : ∀ d ∈ db.events, isEventShaped d = true) :
    (∀ d ∈ (postEvent env db body).db.events, isEventShaped d = true) ∧
    (∀ d ∈ (putEvent env db id body).db.events, isEventShaped d = true) ∧
    (∀ d ∈ (deleteEvent env db id).db.events, isEventShaped d = true) := by
  refine ⟨?_, ?_, ?_⟩
  · intro d hd
    by_cases hc : env.connects = true
    swap
    · exact hinv d (by simpa [postEvent, connectToDatabase, hc] using hd)
    by_cases hf0 : env.fault 0 = true
    · exact hinv d (by simpa [postEvent, connectToDatabase, hc, hf0] using hd)
    by_cases hdup : (findOne db.events env.newId).isSome = true
    · exact hinv d (by simpa [postEvent, connectToDatabase, hc, hf0, insertOne, hdup] using hd)
    · simp only [postEvent, connectToDatabase_connected env db hc, hf0, insertOne, hdup] at hd
      simp only [Bool.not_true, Bool.false_eq_true, if_false, List.mem_append,
        List.mem_singleton] at hd
      rcases hd with h | h
      · exact hinv d h
      · subst h
        simp [isEventShaped, eventLiteral, toBsonMembers, lookup, Lit.toBson, mutableFields]
  · intro d hd
    by_cases hc : env.connects = true
    swap
    · exact hinv d (by simpa [putEvent, connectToDatabase, hc] using hd)
    cases hid : newObjectId id with
    | error e => exact hinv d (by simpa [putEvent, connectToDatabase, hc, hid] using hd)
    | ok oid =>
      by_cases hf0 : env.fault 0 = true
      · exact hinv d (by simpa [putEvent, connectToDatabase, hc, hid, hf0] using hd)
      cases hex : findOne db.events oid with
      | none => exact hinv d (by simpa [putEvent, connectToDatabase, hc, hid, hf0, hex] using hd)
      | some existing =>
        cases hu : updateData existing body with
        | error e =>
          exact hinv d (by simpa [putEvent, connectToDatabase, hc, hid, hf0, hex, hu] using hd)
        | ok lit =>
          by_cases hf1 : env.fault 1 = true
          · exact hinv d
              (by simpa [putEvent, connectToDatabase, hc, hid, hf0, hex, hu, hf1] using hd)
          · have hf0' : env.fault 0 = false := by simpa using hf0
            have hf1' : env.fault 1 = false := by simpa using hf1
            rw [putEvent_of_updateData env db id body oid existing lit hc hid hf0' hf1' hex hu]
              at hd
            by_cases hsame : assignAll existing.fields (toBsonMembers lit) = existing.fields
            · rw [if_pos hsame] at hd
              exact hinv d hd
            · rw [if_neg hsame] at hd
              rcases mem_replaceFirst _ _ _ _ hd with h | h
              · exact hinv d h
              · obtain ⟨tg, ti, hlit⟩ := updateData_inv existing body lit hu
                rw [h, hlit]
                exact isEventShaped_put_document existing body tg ti
  · intro d hd
    apply hinv
    by_cases hc : env.connects = true
    swap
    · simpa [deleteEvent, connectToDatabase, hc] using hd
    cases hid : newObjectId id with
    | error e => simpa [deleteEvent, connectToDatabase, hc, hid] using hd
    | ok oid =>
      by_cases hf0 : env.fault 0 = true
      · simpa [deleteEvent, connectToDatabase, hc, hid, hf0] using hd
      · have hd' : d ∈ (deleteOne db.events oid).1 := by
          simp only [deleteEvent, connectToDatabase_connected env db hc, hid, hf0] at hd
          by_cases hr : (deleteOne db.events oid).2 = 1 <;> simpa [hr] using hd
        unfold deleteOne at hd'
        cases hfo : findOne db.events oid with
        | none => simpa [hfo] using hd'
        | some x =>
          rw [hfo] at hd'
          exact mem_removeFirst _ _ _ hd'

end EventsApi
